import Mathlib

/-!
Verification of the gene-set export pipeline: a shallow embedding of the
record-normalization logic of the two export scripts (the SQLite-backed
variant and the XML-backed variant), together with theorems settling the
specification's testable properties.

Conventions: Python strings are Lean String, Python None is modelled with
Option / an explicit null value, Python dicts in the emitted document are
association lists in insertion order, and character classification
predicates model the ASCII fragment of Python's Unicode-aware versions.
-/

namespace GeneSets

/-! ## Python string helpers

All helpers are written structurally over the character list so that the
kernel can evaluate them on concrete inputs. -/

/-- Split a character list on a single separator character. -/
def splitc (sep : Char) : List Char → List (List Char)
  | [] => [[]]
  | c :: rest =>
    let r := splitc sep rest
    if c = sep then [] :: r
    else
      match r with
      | g :: gs => (c :: g) :: gs
      | [] => [[c]]

/-- Python s.split(sep) for a single-character separator. -/
def pysplit (s : String) (sep : Char) : List String :=
  (splitc sep s.toList).map List.asString

/-- ASCII whitespace as stripped by Python str.strip(). -/
def pyIsSpace (c : Char) : Bool :=
  c = ' ' || c = '\t' || c = '\n' || c = '\r' || c = '\x0b' || c = '\x0c'

/-- Python s.strip() (ASCII whitespace fragment). -/
def pystrip (s : String) : String :=
  ((s.toList.dropWhile pyIsSpace).reverse.dropWhile pyIsSpace).reverse.asString

/-- Python s.isdigit() (ASCII fragment): non-empty and all digits. -/
def pyIsDigit (s : String) : Bool := s ≠ "" && s.toList.all Char.isDigit

/-- Python truthiness of a string: non-empty. -/
def pyTruthy (s : String) : Bool := s ≠ ""

/-- Join a list of strings with a separator string (str.join). -/
def pyjoin (sep : String) : List String → String
  | [] => ""
  | [s] => s
  | s :: rest => s ++ sep ++ pyjoin sep rest

/-- Lookup in an association list, Python dict.get(k). -/
def alookup {α β : Type} [DecidableEq α] (l : List (α × β)) (k : α) : Option β :=
  (l.find? (fun p => p.1 = k)).map Prod.snd

/-! ## The emitted document model

A YAML document value: string, integer, null, list, or mapping
(association list in insertion order). -/

inductive Val : Type where
  | null : Val
  | str : String → Val
  | num : Int → Val
  | list : List Val → Val
  | dict : List (String × Val) → Val
deriving Repr

/-- A document: top-level keys in insertion order. -/
abbrev Doc := List (String × Val)

/-- Option String to document value: None becomes null. -/
def optVal : Option String → Val
  | none => Val.null
  | some s => Val.str s

/-- Python idiom (s or None) on a string field: empty becomes None. -/
def orNone (s : String) : Option String := if s = "" then none else some s

/-! ## Members (one row per gene-like element) -/

structure Member where
  source_id : String
  gene_symbol : Option String
  ncbi_gene_id : Option String
deriving DecidableEq, Repr

/-- One member dict as emitted into the document. -/
def memberVal (m : Member) : Val :=
  Val.dict [("source_id", Val.str m.source_id),
            ("gene_symbol", optVal m.gene_symbol),
            ("ncbi_gene_id", optVal m.ncbi_gene_id)]

/-- One record of the pipe/comma encoded member mapping
(export_genesets_xml.py, parse_members_mapping loop body). -/
def memberOfEntry (entry : String) : Option Member :=
  match pysplit entry ',' with
  | p0 :: p1 :: p2 :: _ =>
      some ⟨p0, some p1, if pyIsDigit p2 then some p2 else none⟩
  | [p0, p1] => some ⟨p0, some p1, none⟩
  | [p0] => if p0 ≠ "" then some ⟨p0, none, none⟩ else none
  | [] => none

/-- export_genesets_xml.py parse_members_mapping. -/
def parse_members_mapping (mapping_str : String) : List Member :=
  if mapping_str = "" then []
  else (pysplit mapping_str '|').filterMap memberOfEntry

/-! ## Dataset reference parsing -/

structure Dataset where
  dataset_id : String
  description : String
deriving DecidableEq, Repr

/-- Split item on the first colon: Python item.split(sep, 1). -/
def splitFirstColon (item : String) : String × String :=
  match pysplit item ':' with
  | [] => (item, "")
  | p :: rest => (p, pyjoin ":" rest)

/-- Python (c in s) membership of a character in a string. -/
def pyContains (s : String) (c : Char) : Bool := s.toList.elem c

/-- export_genesets_xml.py parse_datasets: keeps colon-free items with an
empty description. -/
def parse_datasets (dataset_str : String) : List Dataset :=
  if dataset_str = "" then []
  else (pysplit dataset_str ';').filterMap fun item0 =>
    let item := pystrip item0
    if pyContains item ':' then
      let (did, desc) := splitFirstColon item
      some ⟨pystrip did, pystrip desc⟩
    else if item ≠ "" then some ⟨item, ""⟩
    else none

/-- export_gene_sets.py nested parse_datasets (inside _preload_hallmarks):
silently drops colon-free items. -/
def parse_datasets_sql (dataset_str : String) : List Dataset :=
  if dataset_str = "" then []
  else (pysplit dataset_str ';').filterMap fun item0 =>
    let item := pystrip item0
    if pyContains item ':' then
      let (did, desc) := splitFirstColon item
      some ⟨pystrip did, pystrip desc⟩
    else none

/-! ## Sorting (Python sorted on strings) -/

/-- Lexicographic code-point comparison on character lists. -/
def lexLeChars : List Char → List Char → Bool
  | [], _ => true
  | _ :: _, [] => false
  | a :: as, b :: bs => if a = b then lexLeChars as bs else decide (a < b)

/-- Lexicographic code-point order on strings, as compared by Python sorted. -/
def lexLe (a b : String) : Bool := lexLeChars a.toList b.toList

/-- Python sorted(l) on strings: the sorted stable permutation. -/
def pysorted (l : List String) : List String :=
  List.insertionSort (fun a b => lexLe a b = true) l

/-! ## The XML relationship cache (export_genesets_xml.py, XMLDataCache)

The cache state after the first pass is a function of the sequence of
add_gene_set calls; we model that sequence and derive each container. -/

/-- One add_gene_set(name, pmid, authors) call. -/
structure XmlGs where
  name : String
  pmid : String
  authors : String
deriving DecidableEq, Repr

/-- The split-strip-drop-empties comma split used for author lists and,
in the XML document builder, for the similarity and founder lists. -/
def splitStripCommas (s : String) : List String :=
  ((pysplit s ',').map pystrip).filter (fun a => a ≠ "")

/-- all_gene_sets.get(name): the last added entry with that name. -/
def xmlLookupGs (entries : List XmlGs) (name : String) : Option XmlGs :=
  entries.reverse.find? (fun g => g.name = name)

/-- gene_sets_by_pmid[p]: names added with that non-empty pmid, in order. -/
def xmlByPmid (entries : List XmlGs) (p : String) : List String :=
  (entries.filter (fun g => g.pmid ≠ "" ∧ g.pmid = p)).map XmlGs.name

/-- gene_sets_by_author[a]: one occurrence per mention of the author in an
entry with non-empty authors string, in order. -/
def xmlByAuthor (entries : List XmlGs) (a : String) : List String :=
  entries.flatMap (fun g =>
    if g.authors = "" then []
    else ((splitStripCommas g.authors).filter (fun x => x = a)).map (fun _ => g.name))

/-- The fixed exclusion set of export_genesets_xml.py (empty in the code). -/
def EXCLUDED_FROM_RELATED_GENE_SETS_XML : List String := []

/-- XMLDataCache.get_related_by_publication. -/
def xmlGetRelatedByPublication (entries : List XmlGs) (name : String) :
    List String :=
  match xmlLookupGs entries name with
  | none => []
  | some info =>
    if info.pmid = "" then []
    else pysorted ((xmlByPmid entries info.pmid).filter
      (fun gs => gs ≠ name ∧ gs ∉ EXCLUDED_FROM_RELATED_GENE_SETS_XML))

/-- XMLDataCache.get_related_by_authors: union over the entry's authors,
minus itself and same-publication entries, sorted and deduplicated. -/
def xmlGetRelatedByAuthors (entries : List XmlGs) (name : String) :
    List String :=
  match xmlLookupGs entries name with
  | none => []
  | some info =>
    if info.authors = "" then []
    else
      let collected := (splitStripCommas info.authors).flatMap (fun a =>
        (xmlByAuthor entries a).filter (fun gs_name =>
          gs_name ≠ name &&
          match xmlLookupGs entries gs_name with
          | some gi => gi.pmid ≠ info.pmid
          | none => false))
      pysorted collected.dedup

/-! ## The relational database model (export_gene_sets.py, DataCache)

The preloaded caches are functions of the underlying read-only tables; we
model the tables the relationship queries join over and derive each cache
by the semantics of its SQL text (joins, filters, ORDER BY). -/

/-- A row of the join used by _preload_publication_relationships. -/
structure PubRow where
  pubId : Int
  gsId : Int
  name : String
deriving DecidableEq, Repr

/-- A row of the join used by _preload_author_relationships. -/
structure AuthorRow where
  authorId : Int
  gsId : Int
  name : String
  pubId : Int
deriving DecidableEq, Repr

/-- The tables consulted by the relationship queries. -/
structure SqlDb where
  geneSets : List (Int × String)
  details : List (Int × Option Int)
  pubAuthor : List (Int × Int)
  publications : List Int
deriving Repr

/-- SELECT gsd.publication_id, gs.id, gs.standard_name FROM gene_set gs JOIN
gene_set_details gsd ON gs.id = gsd.gene_set_id WHERE gsd.publication_id IS
NOT NULL (before ORDER BY). -/
def pubJoinRows (db : SqlDb) : List PubRow :=
  db.geneSets.flatMap (fun gs =>
    db.details.filterMap (fun d =>
      if d.1 = gs.1 then d.2.map (fun p => ⟨p, gs.1, gs.2⟩) else none))

/-- ORDER BY gsd.publication_id, gs.standard_name. -/
def pubRowLe (r s : PubRow) : Bool :=
  r.pubId < s.pubId || (r.pubId = s.pubId && lexLe r.name s.name)

/-- The ordered result rows feeding _preload_publication_relationships. -/
def pubRowsSorted (db : SqlDb) : List PubRow :=
  List.insertionSort (fun r s => pubRowLe r s = true) (pubJoinRows db)

/-- gene_sets_by_publication[p] after the preload: the rows with that
publication, in result order. -/
def sqlByPublication (db : SqlDb) (p : Int) : List (Int × String) :=
  ((pubRowsSorted db).filter (fun r => r.pubId = p)).map
    (fun r => (r.gsId, r.name))

/-- The join of _preload_author_relationships (before ORDER BY). -/
def authorJoinRows (db : SqlDb) : List AuthorRow :=
  db.geneSets.flatMap (fun gs =>
    db.details.flatMap (fun d =>
      if d.1 = gs.1 then
        match d.2 with
        | some p =>
          db.pubAuthor.filterMap (fun pa =>
            if pa.1 = p then some ⟨pa.2, gs.1, gs.2, p⟩ else none)
        | none => []
      else []))

/-- ORDER BY pa.author_id, gs.standard_name. -/
def authorRowLe (r s : AuthorRow) : Bool :=
  r.authorId < s.authorId || (r.authorId = s.authorId && lexLe r.name s.name)

/-- The ordered result rows feeding _preload_author_relationships. -/
def authorRowsSorted (db : SqlDb) : List AuthorRow :=
  List.insertionSort (fun r s => authorRowLe r s = true) (authorJoinRows db)

/-- gene_sets_by_author[a] after the preload. -/
def sqlByAuthor (db : SqlDb) (a : Int) : List AuthorRow :=
  (authorRowsSorted db).filter (fun r => r.authorId = a)

/-- The fixed exclusion set of export_gene_sets.py (every entry is
commented out in the code, so it is empty). -/
def EXCLUDED_FROM_RELATED_GENE_SETS_SQL : List String := []

/-- Python truthiness of an optional integer (None and 0 are falsy). -/
def intTruthy : Option Int → Bool
  | none => false
  | some n => n ≠ 0

/-- DataCache.get_related_by_publication(gene_set_id, publication_id). -/
def sqlGetRelatedByPublication (db : SqlDb) (gsId : Int)
    (pubId : Option Int) : List String :=
  match pubId with
  | none => []
  | some p =>
    if p = 0 then []
    else ((sqlByPublication db p).filter (fun gs =>
      gs.1 ≠ gsId ∧ gs.2 ∉ EXCLUDED_FROM_RELATED_GENE_SETS_SQL)).map Prod.snd

/-- DataCache.get_related_by_authors(gene_set_id, publication_id). -/
def sqlGetRelatedByAuthors (db : SqlDb) (gsId : Int)
    (pubId : Option Int) : List String :=
  match pubId with
  | none => []
  | some p =>
    if p = 0 then []
    else if p ∉ db.publications then []
    else if (db.pubAuthor.filter (fun pa => pa.1 = p)).map Prod.snd = []
    then []
    else
      pysorted
        ((((db.pubAuthor.filter (fun pa => pa.1 = p)).map Prod.snd).flatMap
          (fun a => ((sqlByAuthor db a).filter (fun gs =>
            gs.gsId ≠ gsId ∧ gs.pubId ≠ p)).map AuthorRow.name)).dedup)

/-! ## Static tables of export_genesets_xml.py -/

def COLLECTION_FULL_NAMES : List (String × String) := [
  ("C1", "Positional gene sets"),
  ("C2", "Curated gene sets"),
  ("C3", "Regulatory target gene sets"),
  ("C4", "Computational gene sets"),
  ("C5", "Ontology gene sets"),
  ("C6", "Oncogenic signature gene sets"),
  ("C7", "Immunologic signature gene sets"),
  ("C8", "Cell type signature gene sets"),
  ("H", "Hallmark gene sets"),
  ("M1", "Positional gene sets (mouse)"),
  ("M2", "Curated gene sets (mouse)"),
  ("M3", "Regulatory target gene sets (mouse)"),
  ("M5", "Ontology gene sets (mouse)"),
  ("M8", "Cell type signature gene sets (mouse)"),
  ("MH", "Hallmark gene sets (mouse)")]

def SUB_CATEGORY_FULL_NAMES : List (String × String) := [
  ("CGP", "CGP"),
  ("CP", "CP"),
  ("CP:BIOCARTA", "BioCarta"),
  ("CP:KEGG", "KEGG"),
  ("CP:PID", "PID"),
  ("CP:REACTOME", "Reactome"),
  ("CP:WIKIPATHWAYS", "WikiPathways"),
  ("MIR:MIR_LEGACY", "MIR_Legacy"),
  ("MIR:MIRDB", "MIRDB"),
  ("TFT:GTRD", "GTRD"),
  ("TFT:TFT_LEGACY", "TFT_Legacy"),
  ("CGN", "CGN"),
  ("CM", "CM"),
  ("GO:BP", "GO_BP"),
  ("GO:CC", "GO_CC"),
  ("GO:MF", "GO_MF"),
  ("HPO", "HPO"),
  ("VAX", "VAX")]

def PLATFORM_IDS : List (String × Int) := [
  ("Human_Ensembl_Gene_ID", 4),
  ("Mouse_Ensembl_Gene_ID", 5),
  ("Human_NCBI_Gene_ID", 7),
  ("Mouse_NCBI_Gene_ID", 8),
  ("HUMAN_GENE_SYMBOL", 10),
  ("MOUSE_GENE_SYMBOL", 11),
  ("AFFY_HG_U133", 13),
  ("AFFY_HG_U95", 14),
  ("AFFY_HuGene", 15),
  ("AFFY_MG_U74", 16),
  ("AFFY_Mouse430", 17),
  ("AFFY_MoGene", 18),
  ("AFFY_Mu11K", 19),
  ("AFFY_Rat230", 20),
  ("AFFY_RG_U34", 21),
  ("AFFY_RaGene", 22),
  ("Human_AGILENT_Array", 23),
  ("Mouse_AGILENT_Array", 24),
  ("Human_ILLUMINA_Array", 26),
  ("Mouse_ILLUMINA_Array", 27),
  ("Operon_V1.1", 28),
  ("HUMAN_SEQ_ACCESSION", 29),
  ("MOUSE_SEQ_ACCESSION", 30),
  ("Human_RefSeq", 32),
  ("Mouse_RefSeq", 33),
  ("Human_Image_Clone_ID", 35),
  ("Mouse_Image_Clone_ID", 36),
  ("Human_UniProt_ID", 38),
  ("Mouse_UniProt_ID", 39),
  ("UniGene_ID", 41),
  ("Human_Gene_Namespace", 42),
  ("Mouse_Gene_Namespace", 43),
  ("AFFY_HTA_2.0", 44)]

/-! ## The XML document normalizer (export_genesets_xml.py,
export_gene_set_to_yaml lines 483 to 625) -/

/-- geneset_elem.get(name, default empty): attribute lookup. -/
def xget (e : List (String × String)) (k : String) : String :=
  (alookup e k).getD ""

/-- The top-level cleanup predicate: Python
(v is not None and v != empty-list and v != empty-dict). -/
def keepVal : Val → Bool
  | Val.null => false
  | Val.list [] => false
  | Val.dict [] => false
  | _ => true

/-- A version history table: standard name to version/change rows. -/
abbrev VersionHistory := List (String × List (String × String))

/-- The top-level cleanup filter of the XML variant: drop empty values
except the always-keep keys. -/
def keepTop (kv : String × Val) : Bool :=
  kv.1 == "full_description" || kv.1 == "tags" || keepVal kv.2

/-- The base dictionary literal of the XML variant (lines 496 to 511),
with the None values of the collection dict already removed (line 514). -/
def xmlBase (e : List (String × String)) : Doc :=
  let collection_code := xget e "CATEGORY_CODE"
  let sub_category := xget e "SUB_CATEGORY_CODE"
  let collection_name :=
    if sub_category ≠ "" then collection_code ++ ":" ++ sub_category
    else collection_code
  let collection_full_name : Option String :=
    if sub_category ≠ "" then
      some ((alookup SUB_CATEGORY_FULL_NAMES sub_category).getD sub_category)
    else alookup COLLECTION_FULL_NAMES collection_code
  [("standard_name", Val.str (xget e "STANDARD_NAME")),
   ("systematic_name", optVal (orNone (xget e "SYSTEMATIC_NAME"))),
   ("brief_description", optVal (orNone (xget e "DESCRIPTION_BRIEF"))),
   ("full_description", optVal (orNone (xget e "DESCRIPTION_FULL"))),
   ("collection", Val.dict (("name", Val.str collection_name) ::
     (match collection_full_name with
      | some f => [("full_name", Val.str f)]
      | none => []))),
   ("source_species", optVal (orNone (xget e "ORGANISM"))),
   ("contributed_by", optVal (orNone (xget e "CONTRIBUTOR"))),
   ("contributor_organization", optVal (orNone (xget e "CONTRIBUTOR_ORG"))),
   ("exact_source", optVal (orNone (xget e "EXACT_SOURCE"))),
   ("license", Val.str "CC-BY-4.0"),
   ("tags", Val.list (if xget e "TAGS" ≠ "" then
     (pysplit (xget e "TAGS") ',').map Val.str else []))]

/-- source_platform of the XML variant (lines 517 to 528). -/
def xmlPlatformDoc (e : List (String × String)) : Doc :=
  let chip := xget e "CHIP"
  if chip ≠ "" then
    [("source_platform", Val.dict
      (match alookup PLATFORM_IDS chip with
       | some pid => [("id", Val.num pid), ("name", Val.str chip)]
       | none => [("name", Val.str chip)]))]
  else []

/-- external_links of the XML variant (lines 531 to 539). -/
def xmlExtDoc (e : List (String × String)) : Doc :=
  let external_links :=
    (if xget e "EXTERNAL_DETAILS_URL" ≠ ""
     then [xget e "EXTERNAL_DETAILS_URL"] else []) ++
    (if xget e "GENESET_LISTING_URL" ≠ ""
     then [xget e "GENESET_LISTING_URL"] else [])
  if external_links ≠ [] then
    [("external_links", Val.list (external_links.map Val.str))]
  else []

/-- source_publication of the XML variant (lines 542 to 550): pmid and
authors only. -/
def xmlPubDoc (e : List (String × String)) : Doc :=
  let pmid := xget e "PMID"
  let authors_str := xget e "AUTHORS"
  if pmid ≠ "" ∨ authors_str ≠ "" then
    [("source_publication", Val.dict
      ((if pmid ≠ "" then [("pmid", Val.str pmid)] else []) ++
       (if authors_str ≠ "" then
         [("authors", Val.list ((splitStripCommas authors_str).map Val.str))]
        else [])))]
  else []

/-- related_gene_sets of the XML variant (lines 553 to 563). -/
def xmlRelDoc (e : List (String × String)) (entries : List XmlGs) : Doc :=
  let standard_name := xget e "STANDARD_NAME"
  let pub_related := xmlGetRelatedByPublication entries standard_name
  let author_related := xmlGetRelatedByAuthors entries standard_name
  let relatedPairs : List (String × Val) :=
    (if pub_related ≠ [] then
      [("from_same_publication", Val.list (pub_related.map Val.str))] else []) ++
    (if author_related ≠ [] then
      [("from_same_authors", Val.list (author_related.map Val.str))] else [])
  if relatedPairs.isEmpty then []
  else [("related_gene_sets", Val.dict relatedPairs)]

/-- filtered_by_similarity of the XML variant (lines 566 to 568). -/
def xmlFiltDoc (e : List (String × String)) : Doc :=
  let filtered := xget e "FILTERED_BY_SIMILARITY"
  if filtered ≠ "" then
    [("filtered_by_similarity",
      Val.list ((splitStripCommas filtered).map Val.str))]
  else []

/-- dataset_references of the XML variant (lines 571 to 597). -/
def xmlDsDoc (e : List (String × String)) : Doc :=
  let geo_id := xget e "GEOID"
  let datasets : List Val :=
    (if geo_id ≠ "" then
      [Val.dict [("type", Val.str "GEO"), ("id", Val.str geo_id)]] else []) ++
    (parse_datasets (xget e "REFINEMENT_DATASETS")).map (fun d =>
      Val.dict [("type", Val.str "Hallmark Refinement"),
                ("id", Val.str d.dataset_id),
                ("description", Val.str d.description)]) ++
    (parse_datasets (xget e "VALIDATION_DATASETS")).map (fun d =>
      Val.dict [("type", Val.str "Hallmark Validation"),
                ("id", Val.str d.dataset_id),
                ("description", Val.str d.description)])
  if datasets.isEmpty then [] else [("dataset_references", Val.list datasets)]

/-- hallmark_info of the XML variant (lines 600 to 604). -/
def xmlHallDoc (e : List (String × String)) : Doc :=
  let founder_names := xget e "FOUNDER_NAMES"
  if founder_names ≠ "" then
    [("hallmark_info", Val.dict [("founder_gene_sets",
      Val.list ((splitStripCommas founder_names).map Val.str))])]
  else []

/-- version_history of the XML variant (lines 607 to 608). -/
def xmlVhDoc (e : List (String × String)) (vh : VersionHistory) : Doc :=
  match alookup vh (xget e "STANDARD_NAME") with
  | some versions =>
    [("version_history", Val.list (versions.map (fun vc =>
      Val.dict [("version", Val.str vc.1), ("change", Val.str vc.2)])))]
  | none => []

/-- members and the two recomputed counters of the XML variant
(lines 611 to 619). -/
def xmlMemDoc (e : List (String × String)) : Doc :=
  let members := parse_members_mapping (xget e "MEMBERS_MAPPING")
  [("members", Val.list (members.map memberVal)),
   ("num_members", Val.num members.length),
   ("num_genes_mapped",
     Val.num (members.countP (fun m => m.gene_symbol ≠ none)))]

/-- The full insertion-ordered dictionary of the XML variant before the
top-level cleanup. -/
def xmlPre (e : List (String × String)) (vh : VersionHistory)
    (entries : List XmlGs) : Doc :=
  xmlBase e ++ xmlPlatformDoc e ++ xmlExtDoc e ++ xmlPubDoc e ++
  xmlRelDoc e entries ++ xmlFiltDoc e ++ xmlDsDoc e ++ xmlHallDoc e ++
  xmlVhDoc e vh ++ xmlMemDoc e

/-- The document built for one GENESET element by the XML variant of
export_gene_set_to_yaml (the part before writing the file). -/
def xmlGeneSetData (e : List (String × String)) (vh : VersionHistory)
    (entries : List XmlGs) : Doc :=
  (xmlPre e vh entries).filter keepTop

/-! ## The relational document normalizer (export_gene_sets.py,
get_gene_set_basic_info and export_gene_set_to_yaml lines 395 to 518) -/

/-- The row fetched by the get_gene_set_basic_info query (gene_set joined
with gene_set_details); every detail column is nullable. -/
structure GsRow where
  standard_name : String
  collection_name : Option String
  tags : Option String
  license_code : Option String
  systematic_name : Option String
  description_brief : Option String
  description_full : Option String
  exact_source : Option String
  external_details_URL : Option String
  contributor : Option String
  contrib_organization : Option String
  source_species_code : Option String
  publication_id : Option Int
  GEO_id : Option String
  primary_namespace_id : Option Int
deriving Repr

/-- A cached publication record with its ordered author list. -/
structure PubInfo where
  pmid : Option String
  title : Option String
  doi : Option String
  url : Option String
  authors : List String
deriving Repr

/-- A cached hallmark record (_preload_hallmarks). -/
structure HallmarkInfo where
  founder_gene_sets : List String
  validation_datasets : List Dataset
  refinement_datasets : List Dataset
deriving Repr

/-- The preloaded lookup caches of DataCache that the document builder
consults (each one a key to value table filled once per run). -/
structure SqlCaches where
  species_cache : List (String × String)
  collection_cache : List (String × String)
  namespace_cache : List (Int × String)
  publication_cache : List (Int × PubInfo)
  external_links_cache : List (String × List String)
  filtered_similarity_cache : List (Int × List String)
  hallmark_cache : List (Int × HallmarkInfo)

/-- Python (x if x else None) on an optional string (empty is falsy). -/
def optStrTruthy : Option String → Option String
  | some "" => none
  | x => x

/-- The founder list stored by _preload_hallmarks:
row.split(plain comma) when truthy, no stripping. -/
def hallmarkFounders (s : Option String) : List String :=
  match optStrTruthy s with
  | some t => pysplit t ','
  | none => []

/-- The info dictionary built by get_gene_set_basic_info. -/
structure SqlInfo where
  standard_name : String
  collection_name : Option String
  collection_full_name : Option String
  tags : Option String
  license_code : Option String
  systematic_name : Option String
  description_brief : Option String
  description_full : Option String
  exact_source : Option String
  external_details_url : Option String
  contributor : Option String
  contributor_organization : Option String
  source_species_code : Option String
  source_species : Option String
  publication_id : Option Int
  geo_id : Option String
  namespace_id : Option Int
  namespace_label : Option String
deriving Repr

/-- export_gene_sets.py get_gene_set_basic_info (the dictionary assembled
from the fetched row plus cached lookups). -/
def get_gene_set_basic_info (row : GsRow) (c : SqlCaches) : SqlInfo :=
  { standard_name := row.standard_name
    collection_name := row.collection_name
    collection_full_name :=
      (optStrTruthy row.collection_name).bind (alookup c.collection_cache)
    tags := row.tags
    license_code := row.license_code
    systematic_name := row.systematic_name
    description_brief := row.description_brief
    description_full := row.description_full
    exact_source := row.exact_source
    external_details_url := row.external_details_URL
    contributor := row.contributor
    contributor_organization := row.contrib_organization
    source_species_code := row.source_species_code
    source_species :=
      (optStrTruthy row.source_species_code).bind (alookup c.species_cache)
    publication_id := row.publication_id
    geo_id := row.GEO_id
    namespace_id := row.primary_namespace_id
    namespace_label :=
      if intTruthy row.primary_namespace_id then
        row.primary_namespace_id.bind (alookup c.namespace_cache)
      else none }

/-- The source_publication dictionary in the relational variant: the whole
cached record, null fields included. -/
def pubInfoVal (pi : PubInfo) : Val :=
  Val.dict [("pmid", optVal pi.pmid), ("title", optVal pi.title),
            ("doi", optVal pi.doi), ("url", optVal pi.url),
            ("authors", Val.list (pi.authors.map Val.str))]

/-- The base dictionary literal of the relational variant (lines 413 to
428); no None value is ever removed in this variant. -/
def sqlBase (info : SqlInfo) : Doc :=
  [("standard_name", Val.str info.standard_name),
   ("systematic_name", optVal info.systematic_name),
   ("brief_description", optVal info.description_brief),
   ("full_description", optVal info.description_full),
   ("collection", Val.dict [
     ("name", optVal info.collection_name),
     ("full_name", optVal info.collection_full_name)]),
   ("source_species", optVal info.source_species),
   ("contributed_by", optVal info.contributor),
   ("contributor_organization", optVal info.contributor_organization),
   ("exact_source", optVal info.exact_source),
   ("license", optVal info.license_code),
   ("tags", Val.list (match optStrTruthy info.tags with
     | some t => (pysplit t ',').map Val.str
     | none => []))]

/-- source_platform of the relational variant (lines 431 to 435). -/
def sqlPlatformDoc (info : SqlInfo) : Doc :=
  if intTruthy info.namespace_id then
    [("source_platform", Val.dict [
      ("id", Val.num (info.namespace_id.getD 0)),
      ("name", optVal info.namespace_label)])]
  else []

/-- external_links of the relational variant (lines 438 to 443). -/
def sqlExtDoc (info : SqlInfo) (c : SqlCaches) : Doc :=
  let external_links :=
    (match optStrTruthy info.external_details_url with
     | some u => [u]
     | none => []) ++
    (alookup c.external_links_cache info.standard_name).getD []
  if external_links ≠ [] then
    [("external_links", Val.list (external_links.map Val.str))]
  else []

/-- source_publication of the relational variant (lines 446 to 448). -/
def sqlPubDoc (info : SqlInfo) (c : SqlCaches) : Doc :=
  match info.publication_id.bind (alookup c.publication_cache) with
  | some pi => [("source_publication", pubInfoVal pi)]
  | none => []

/-- related_gene_sets of the relational variant (lines 451 to 461). -/
def sqlRelDoc (info : SqlInfo) (gsId : Int) (db : SqlDb) : Doc :=
  let pub_related := sqlGetRelatedByPublication db gsId info.publication_id
  let author_related := sqlGetRelatedByAuthors db gsId info.publication_id
  let relatedPairs : List (String × Val) :=
    (if pub_related ≠ [] then
      [("from_same_publication", Val.list (pub_related.map Val.str))] else []) ++
    (if author_related ≠ [] then
      [("from_same_authors", Val.list (author_related.map Val.str))] else [])
  if relatedPairs.isEmpty then []
  else [("related_gene_sets", Val.dict relatedPairs)]

/-- filtered_by_similarity of the relational variant (lines 464 to 466). -/
def sqlFiltDoc (gsId : Int) (c : SqlCaches) : Doc :=
  let filtered := (alookup c.filtered_similarity_cache gsId).getD []
  if filtered ≠ [] then
    [("filtered_by_similarity", Val.list (filtered.map Val.str))]
  else []

/-- dataset_references of the relational variant (lines 469 to 493). -/
def sqlDsDoc (info : SqlInfo) (gsId : Int) (c : SqlCaches) : Doc :=
  let hallmark_info := alookup c.hallmark_cache gsId
  let datasets : List Val :=
    (match optStrTruthy info.geo_id with
     | some g => [Val.dict [("type", Val.str "GEO"), ("id", Val.str g)]]
     | none => []) ++
    (match hallmark_info with
     | some hi =>
       hi.refinement_datasets.map (fun d =>
         Val.dict [("type", Val.str "Hallmark Refinement"),
                   ("id", Val.str d.dataset_id),
                   ("description", Val.str d.description)]) ++
       hi.validation_datasets.map (fun d =>
         Val.dict [("type", Val.str "Hallmark Validation"),
                   ("id", Val.str d.dataset_id),
                   ("description", Val.str d.description)])
     | none => [])
  if datasets.isEmpty then [] else [("dataset_references", Val.list datasets)]

/-- hallmark_info of the relational variant (lines 496 to 499). -/
def sqlHallDoc (gsId : Int) (c : SqlCaches) : Doc :=
  match alookup c.hallmark_cache gsId with
  | some hi =>
    if hi.founder_gene_sets ≠ [] then
      [("hallmark_info", Val.dict [("founder_gene_sets",
        Val.list (hi.founder_gene_sets.map Val.str))])]
    else []
  | none => []

/-- version_history of the relational variant (lines 502 to 503). -/
def sqlVhDoc (info : SqlInfo) (vh : VersionHistory) : Doc :=
  match alookup vh info.standard_name with
  | some versions =>
    [("version_history", Val.list (versions.map (fun vc =>
      Val.dict [("version", Val.str vc.1), ("change", Val.str vc.2)])))]
  | none => []

/-- members and the two recomputed counters of the relational variant
(lines 506 to 512). -/
def sqlMemDoc (members : List Member) : Doc :=
  [("members", Val.list (members.map memberVal)),
   ("num_members", Val.num members.length),
   ("num_genes_mapped",
     Val.num (members.countP (fun m => m.gene_symbol ≠ none)))]

/-- The document built for one gene set by the relational variant of
export_gene_set_to_yaml (the part before writing the file); the member
rows are the result of the get_gene_members query. No top-level cleanup
happens in this variant. -/
def sqlGeneSetData (row : GsRow) (gsId : Int) (c : SqlCaches) (db : SqlDb)
    (vh : VersionHistory) (members : List Member) : Doc :=
  let info := get_gene_set_basic_info row c
  sqlBase info ++ sqlPlatformDoc info ++ sqlExtDoc info c ++
  sqlPubDoc info c ++ sqlRelDoc info gsId db ++ sqlFiltDoc gsId c ++
  sqlDsDoc info gsId c ++ sqlHallDoc gsId c ++ sqlVhDoc info vh ++
  sqlMemDoc members

/-! ## The exporter and resume mode (file system effects) -/

/-- The destination directory: file name to written document. -/
abbrev FS := List (String × Doc)

/-- Path(...).exists() for an output file name. -/
def fsExists (fs : FS) (fname : String) : Bool := (alookup fs fname).isSome

/-- open(file, w) plus yaml.dump: (over)write one file. -/
def fsWrite (fs : FS) (fname : String) (d : Doc) : FS :=
  (fname, d) :: fs.filter (fun p => ¬ p.1 = fname)

/-- The XML variant of export_gene_set_to_yaml including the empty-name
guard, the resume check and the file write; returns the reported name and
the new directory state. -/
def export_gene_set_to_yaml_xml (e : List (String × String))
    (vh : VersionHistory) (entries : List XmlGs) (resume : Bool) (fs : FS) :
    Option String × FS :=
  let standard_name := xget e "STANDARD_NAME"
  if standard_name = "" then (none, fs)
  else
    let output_file := standard_name ++ ".yaml"
    if resume && fsExists fs output_file then (none, fs)
    else (some standard_name,
          fsWrite fs output_file (xmlGeneSetData e vh entries))

/-- The relational variant of export_gene_set_to_yaml including the missing
row guard, the resume check and the file write. -/
def export_gene_set_to_yaml_sql (row : Option GsRow) (gsId : Int)
    (c : SqlCaches) (db : SqlDb) (vh : VersionHistory)
    (members : List Member) (resume : Bool) (fs : FS) : Option String × FS :=
  match row with
  | none => (none, fs)
  | some r =>
    let standard_name := r.standard_name
    let output_file := standard_name ++ ".yaml"
    if resume && fsExists fs output_file then (none, fs)
    else (some standard_name,
          fsWrite fs output_file (sqlGeneSetData r gsId c db vh members))

/-! ## The markup sanitizer (export_genesets_xml.py,
sanitize_xml_content and the escape pass of create_sanitized_xml_copy)

The index-juggling loop of the escape pass is a three-state scanner:
outside any GENESET tag, inside a GENESET tag between attributes, and
inside an attribute value. The only part of the emitted prefix the loop
ever inspects is whether the item just before an equals sign is a single
alphanumeric-or-underscore character, carried here as the prev flag. -/

/-- XML 1.0 valid characters (the valid_xml_char predicate). -/
def valid_xml_char (c : Char) : Bool :=
  c.toNat = 0x9 || c.toNat = 0xA || c.toNat = 0xD ||
  (0x20 ≤ c.toNat && c.toNat ≤ 0xD7FF) ||
  (0xE000 ≤ c.toNat && c.toNat ≤ 0xFFFD) ||
  (0x10000 ≤ c.toNat && c.toNat ≤ 0x10FFFF)

/-- sanitize_xml_content: drop invalid XML characters. -/
def sanitize_xml_content (l : List Char) : List Char := l.filter valid_xml_char

/-- Does the pattern start the list? -/
def startsWithChars : List Char → List Char → Bool
  | [], _ => true
  | _ :: _, [] => false
  | p :: ps, c :: cs => p = c && startsWithChars ps cs

/-- The closing-quote lookahead: the text after a quote signals the real
end of an attribute value (end of input, space then an uppercase letter,
space then a slash, a self-closing bracket, or a closing bracket). -/
def isEndQuote : List Char → Bool
  | [] => true
  | r0 :: rtail =>
    (r0 = ' ' && (match rtail.head? with
      | some r1 => r1.isUpper || r1 = '/'
      | none => false)) ||
    startsWithChars "/>".toList (r0 :: rtail) ||
    (r0 = '>')

/-- Decimal digits up to a terminating semicolon. -/
def digitsThenSemi : List Char → Bool
  | [] => false
  | c :: rest => if c = ';' then true else (c.isDigit && digitsThenSemi rest)

/-- The regex character class 0-9a-fA-F. -/
def pyIsHexDigit (c : Char) : Bool :=
  c.isDigit || ('a' ≤ c && c ≤ 'f') || ('A' ≤ c && c ≤ 'F')

/-- Hex digits up to a terminating semicolon. -/
def hexThenSemi : List Char → Bool
  | [] => false
  | c :: rest => if c = ';' then true else (pyIsHexDigit c && hexThenSemi rest)

/-- A decimal character reference within the ten-character window. -/
def numericEntityAt (l : List Char) : Bool :=
  match l.take 10 with
  | a :: b :: c :: rest =>
    a = '&' && b = '#' && c.isDigit && digitsThenSemi rest
  | _ => false

/-- A hexadecimal character reference within the ten-character window. -/
def hexEntityAt (l : List Char) : Bool :=
  match l.take 10 with
  | a :: b :: x :: c :: rest =>
    a = '&' && b = '#' && x = 'x' && pyIsHexDigit c && hexThenSemi rest
  | _ => false

/-- The already-escaped test on an ampersand: one of the five named
entities, or a numeric or hexadecimal character reference. -/
def entityAt (l : List Char) : Bool :=
  startsWithChars "&lt;".toList l || startsWithChars "&gt;".toList l ||
  startsWithChars "&amp;".toList l || startsWithChars "&quot;".toList l ||
  startsWithChars "&apos;".toList l ||
  numericEntityAt l || hexEntityAt l

/-- The copy-as-is loop on a recognized entity: copy up to and including
the first semicolon (or everything when no semicolon remains), and return
the remainder. -/
def copyEntity : List Char → List Char × List Char
  | [] => ([], [])
  | c :: r =>
    if c = ';' then ([';'], r)
    else
      let er := copyEntity r
      (c :: er.1, er.2)

theorem copyEntity_snd_length_le (l : List Char) :
    ((copyEntity l).2).length ≤ l.length := by
  induction l with
  | nil => simp [copyEntity]
  | cons c r ih =>
    by_cases hc : c = ';'
    · subst hc; simp [copyEntity]
    · simp only [copyEntity, if_neg hc, List.length_cons]
      omega

theorem copyEntity_snd_length_lt (c : Char) (l : List Char) :
    ((copyEntity (c :: l)).2).length < (c :: l).length := by
  by_cases hc : c = ';'
  · subst hc; simp [copyEntity]
  · simp only [copyEntity, if_neg hc, List.length_cons]
    have := copyEntity_snd_length_le l
    omega

mutual

/-- The escape pass, outside any GENESET element. -/
def scanTop : List Char → List Char
  | [] => []
  | c :: rest =>
    if startsWithChars "<GENESET".toList (c :: rest) then
      "<GENESET".toList ++ scanAttr false (rest.drop 7)
    else c :: scanTop rest
termination_by s => s.length
decreasing_by all_goals simp_wf <;> omega

/-- The escape pass, inside a GENESET tag between attribute values; prev
records whether the previously emitted item is a single
alphanumeric-or-underscore character. -/
def scanAttr (prev : Bool) : List Char → List Char
  | [] => []
  | c :: rest =>
    if startsWithChars "/>".toList (c :: rest) then
      '/' :: '>' :: scanTop rest.tail
    else if c = '>' then '>' :: scanTop rest
    else if c = '=' && rest.head? = some '"' then
      if prev then '=' :: '"' :: scanValue rest.tail
      else '=' :: '"' :: scanAttr false rest.tail
    else c :: scanAttr (c.isAlphanum || c = '_') rest
termination_by s => s.length
decreasing_by all_goals simp_wf <;> omega

/-- The escape pass, inside a GENESET attribute value. -/
def scanValue : List Char → List Char
  | [] => []
  | c :: rest =>
    if c = '"' then
      if isEndQuote rest then '"' :: scanAttr false rest
      else "&quot;".toList ++ scanValue rest
    else if c = '&' then
      if entityAt (c :: rest) then
        ((copyEntity (c :: rest)).1) ++ scanValue ((copyEntity (c :: rest)).2)
      else "&amp;".toList ++ scanValue rest
    else if c = '<' then "&lt;".toList ++ scanValue rest
    else if c = '>' then "&gt;".toList ++ scanValue rest
    else c :: scanValue rest
termination_by s => s.length
decreasing_by
  all_goals simp_wf
  all_goals first
    | omega
    | (exact copyEntity_snd_length_lt _ _)

end

/-- The full text transformation of create_sanitized_xml_copy: strip
invalid characters, then escape GENESET attribute values. -/
def sanitizeText (l : List Char) : List Char :=
  scanTop (sanitize_xml_content l)

/-- String-level wrapper of the sanitizer. -/
def sanitizeString (s : String) : String := (sanitizeText s.toList).asString

/-! ## The round-trip setting of the refinement claim

Following the specification text, a logical entity is a single record
that both a relational field set and an equivalent XML field set can
encode; the encodings below are written from the specification's words
(the field vocabulary shared by both sources), not from either script. -/

/-- A logical entity restricted to the field vocabulary both sources can
supply. -/
structure LogicalEntity where
  name : String
  systematic : Option String
  brief : Option String
  full : Option String
  contributor : Option String
  contributorOrg : Option String
  exactSource : Option String
  speciesCode : String
  speciesName : String
  collectionCode : String
  subCategory : String
  licenseCode : String
  tagsRaw : String
  members : List Member
deriving Repr

/-- The compact member-mapping encoding of one member. -/
def encodeMember (m : Member) : String :=
  m.source_id ++ "," ++ (m.gene_symbol.getD "") ++ "," ++
    (m.ncbi_gene_id.getD "")

/-- The pipe-joined member-mapping attribute for a member list. -/
def encodeMembers (ms : List Member) : String :=
  pyjoin "|" (ms.map encodeMember)

/-- The equivalent XML field set (GENESET attribute list) of a logical
entity. -/
def toXmlElem (l : LogicalEntity) : List (String × String) :=
  [("STANDARD_NAME", l.name),
   ("SYSTEMATIC_NAME", l.systematic.getD ""),
   ("DESCRIPTION_BRIEF", l.brief.getD ""),
   ("DESCRIPTION_FULL", l.full.getD ""),
   ("CATEGORY_CODE", l.collectionCode),
   ("SUB_CATEGORY_CODE", l.subCategory),
   ("ORGANISM", l.speciesName),
   ("CONTRIBUTOR", l.contributor.getD ""),
   ("CONTRIBUTOR_ORG", l.contributorOrg.getD ""),
   ("EXACT_SOURCE", l.exactSource.getD ""),
   ("TAGS", l.tagsRaw),
   ("MEMBERS_MAPPING", encodeMembers l.members)]

/-- The equivalent relational field set (the row of
get_gene_set_basic_info) of a logical entity. -/
def toGsRow (l : LogicalEntity) : GsRow :=
  { standard_name := l.name
    collection_name := some (if l.subCategory ≠ "" then
      l.collectionCode ++ ":" ++ l.subCategory else l.collectionCode)
    tags := orNone l.tagsRaw
    license_code := some l.licenseCode
    systematic_name := l.systematic
    description_brief := l.brief
    description_full := l.full
    exact_source := l.exactSource
    external_details_URL := none
    contributor := l.contributor
    contrib_organization := l.contributorOrg
    source_species_code := some l.speciesCode
    publication_id := none
    GEO_id := none
    primary_namespace_id := none }

/-- The preloaded caches holding exactly the auxiliary rows of the
logical entity (the species display name). -/
def toSqlCaches (l : LogicalEntity) : SqlCaches :=
  { species_cache := [(l.speciesCode, l.speciesName)]
    collection_cache := []
    namespace_cache := []
    publication_cache := []
    external_links_cache := []
    filtered_similarity_cache := []
    hallmark_cache := [] }

/-- An empty relationship database (no publications, no authors). -/
def emptyDb : SqlDb := ⟨[], [], [], []⟩

/-- The emitted value of a field, reading an omitted key as null (the two
variants render an absent optional field as omission or as an explicit
null respectively). -/
def fieldNorm (d : Doc) (k : String) : Val :=
  match alookup d k with
  | none => Val.null
  | some v => v

/-- The fields both sources derive identically (the shared core). -/
def sharedCoreKeys : List String :=
  ["standard_name", "systematic_name", "brief_description",
   "full_description", "source_species", "contributed_by",
   "contributor_organization", "exact_source", "tags",
   "members", "num_members", "num_genes_mapped"]

/-- A well-formed member for the round-trip: the gene symbol is present
and non-empty, no field carries a separator character, and the NCBI id is
numeric when present. -/
def memberWF (m : Member) : Bool :=
  !(pyContains m.source_id ',') && !(pyContains m.source_id '|') &&
  (match m.gene_symbol with
   | some g => pyTruthy g && !(pyContains g ',') && !(pyContains g '|')
   | none => false) &&
  (match m.ncbi_gene_id with
   | some d => pyIsDigit d
   | none => true)

/-- A logical entity with a member whose gene symbol is null: its XML
member-mapping encoding loses the null. -/
def nullSymbolEntity : LogicalEntity :=
  ⟨"BAD_SET", none, none, none, none, none, none, "HS", "Homo sapiens",
   "C2", "", "CC0-1.0", "", [⟨"5678", none, none⟩]⟩

/-- A logical entity meeting every well-formedness condition of the
amended round-trip statement. -/
def wellFormedEntity : LogicalEntity :=
  ⟨"GOOD_SET", some "M123", some "brief text", some "full text",
   some "alice", some "org", some "GSE1", "HS", "Homo sapiens",
   "C2", "CP", "CC-BY-4.0", "tag1,tag2",
   [⟨"111", some "TP53", some "7157"⟩, ⟨"222", some "BRCA1", none⟩]⟩

/-! # Helper lemmas -/

theorem alookup_nil {α β : Type} [DecidableEq α] (k : α) :
    alookup ([] : List (α × β)) k = none := rfl

theorem alookup_cons {α β : Type} [DecidableEq α] (k' : α) (v : β)
    (l : List (α × β)) (k : α) :
    alookup ((k', v) :: l) k = if k' = k then some v else alookup l k := by
  by_cases h : k' = k <;> simp [alookup, List.find?, h]

theorem alookup_append {α β : Type} [DecidableEq α] (A B : List (α × β))
    (k : α) : alookup (A ++ B) k = (alookup A k).or (alookup B k) := by
  unfold alookup
  rw [List.find?_append]
  cases List.find? (fun p => p.1 = k) A <;> simp

theorem alookup_eq_none_of_ne {α β : Type} [DecidableEq α]
    {A : List (α × β)} {k : α} (h : ∀ kv ∈ A, kv.1 ≠ k) :
    alookup A k = none := by
  unfold alookup
  rw [List.find?_eq_none.mpr]
  · rfl
  · intro x hx
    simp [h x hx]

theorem alookup_append_of_ne {α β : Type} [DecidableEq α]
    {A : List (α × β)} (B : List (α × β)) {k : α}
    (h : ∀ kv ∈ A, kv.1 ≠ k) :
    alookup (A ++ B) k = alookup B k := by
  rw [alookup_append, alookup_eq_none_of_ne h]
  rfl

/-! Key inventories of the XML document segments. -/

theorem xmlBase_keys (e : List (String × String)) :
    ∀ kv ∈ xmlBase e, kv.1 ∈ ["standard_name", "systematic_name",
      "brief_description", "full_description", "collection",
      "source_species", "contributed_by", "contributor_organization",
      "exact_source", "license", "tags"] := by
  intro kv h
  simp only [xmlBase, List.mem_cons, List.not_mem_nil, or_false] at h
  rcases h with h | h | h | h | h | h | h | h | h | h | h <;> subst h <;> simp

theorem xmlPlatformDoc_keys (e : List (String × String)) :
    ∀ kv ∈ xmlPlatformDoc e, kv.1 = "source_platform" := by
  intro kv h
  simp only [xmlPlatformDoc] at h
  split at h <;> simp_all

theorem xmlExtDoc_keys (e : List (String × String)) :
    ∀ kv ∈ xmlExtDoc e, kv.1 = "external_links" := by
  intro kv h
  simp only [xmlExtDoc] at h
  split at h <;> simp_all

theorem xmlPubDoc_keys (e : List (String × String)) :
    ∀ kv ∈ xmlPubDoc e, kv.1 = "source_publication" := by
  intro kv h
  simp only [xmlPubDoc] at h
  split at h <;> simp_all

theorem xmlRelDoc_keys (e : List (String × String)) (entries : List XmlGs) :
    ∀ kv ∈ xmlRelDoc e entries, kv.1 = "related_gene_sets" := by
  intro kv h
  simp only [xmlRelDoc] at h
  split at h <;> simp_all

theorem xmlFiltDoc_keys (e : List (String × String)) :
    ∀ kv ∈ xmlFiltDoc e, kv.1 = "filtered_by_similarity" := by
  intro kv h
  simp only [xmlFiltDoc] at h
  split at h <;> simp_all

theorem xmlDsDoc_keys (e : List (String × String)) :
    ∀ kv ∈ xmlDsDoc e, kv.1 = "dataset_references" := by
  intro kv h
  simp only [xmlDsDoc] at h
  split at h <;> simp_all

theorem xmlHallDoc_keys (e : List (String × String)) :
    ∀ kv ∈ xmlHallDoc e, kv.1 = "hallmark_info" := by
  intro kv h
  simp only [xmlHallDoc] at h
  split at h <;> simp_all

theorem xmlVhDoc_keys (e : List (String × String)) (vh : VersionHistory) :
    ∀ kv ∈ xmlVhDoc e vh, kv.1 = "version_history" := by
  intro kv h
  simp only [xmlVhDoc] at h
  split at h <;> simp_all

/-! Key inventories of the relational document segments. -/

theorem sqlBase_keys (info : SqlInfo) :
    ∀ kv ∈ sqlBase info, kv.1 ∈ ["standard_name", "systematic_name",
      "brief_description", "full_description", "collection",
      "source_species", "contributed_by", "contributor_organization",
      "exact_source", "license", "tags"] := by
  intro kv h
  simp only [sqlBase, List.mem_cons, List.not_mem_nil, or_false] at h
  rcases h with h | h | h | h | h | h | h | h | h | h | h <;> subst h <;> simp

theorem sqlPlatformDoc_keys (info : SqlInfo) :
    ∀ kv ∈ sqlPlatformDoc info, kv.1 = "source_platform" := by
  intro kv h
  simp only [sqlPlatformDoc] at h
  split at h <;> simp_all

theorem sqlExtDoc_keys (info : SqlInfo) (c : SqlCaches) :
    ∀ kv ∈ sqlExtDoc info c, kv.1 = "external_links" := by
  intro kv h
  simp only [sqlExtDoc] at h
  split at h <;> simp_all

theorem sqlPubDoc_keys (info : SqlInfo) (c : SqlCaches) :
    ∀ kv ∈ sqlPubDoc info c, kv.1 = "source_publication" := by
  intro kv h
  simp only [sqlPubDoc] at h
  split at h <;> simp_all

theorem sqlRelDoc_keys (info : SqlInfo) (gsId : Int) (db : SqlDb) :
    ∀ kv ∈ sqlRelDoc info gsId db, kv.1 = "related_gene_sets" := by
  intro kv h
  simp only [sqlRelDoc] at h
  split at h <;> simp_all

theorem sqlFiltDoc_keys (gsId : Int) (c : SqlCaches) :
    ∀ kv ∈ sqlFiltDoc gsId c, kv.1 = "filtered_by_similarity" := by
  intro kv h
  simp only [sqlFiltDoc] at h
  split at h <;> simp_all

theorem sqlDsDoc_keys (info : SqlInfo) (gsId : Int) (c : SqlCaches) :
    ∀ kv ∈ sqlDsDoc info gsId c, kv.1 = "dataset_references" := by
  intro kv h
  simp only [sqlDsDoc] at h
  split at h <;> simp_all

theorem sqlHallDoc_keys (gsId : Int) (c : SqlCaches) :
    ∀ kv ∈ sqlHallDoc gsId c, kv.1 = "hallmark_info" := by
  intro kv h
  simp only [sqlHallDoc] at h
  split at h
  · split at h <;> simp_all
  · simp_all

theorem sqlVhDoc_keys (info : SqlInfo) (vh : VersionHistory) :
    ∀ kv ∈ sqlVhDoc info vh, kv.1 = "version_history" := by
  intro kv h
  simp only [sqlVhDoc] at h
  split at h <;> simp_all

theorem alookup_filter_append_of_ne {q : String × Val → Bool}
    (A B : Doc) {k : String} (h : ∀ kv ∈ A, kv.1 ≠ k) :
    alookup ((A ++ B).filter q) k = alookup (B.filter q) k := by
  rw [List.filter_append]
  exact alookup_append_of_ne _ (fun kv hkv => h kv (List.mem_filter.mp hkv).1)

/-- Both recomputed counters of the XML document. -/
theorem xml_counts (e : List (String × String)) (vh : VersionHistory)
    (entries : List XmlGs) :
    alookup (xmlGeneSetData e vh entries) "num_members" =
      some (Val.num (parse_members_mapping (xget e "MEMBERS_MAPPING")).length) ∧
    alookup (xmlGeneSetData e vh entries) "num_genes_mapped" =
      some (Val.num ((parse_members_mapping (xget e "MEMBERS_MAPPING")).countP
        (fun m => m.gene_symbol ≠ none))) := by
  have key : ∀ k, (k = "num_members" ∨ k = "num_genes_mapped") →
      alookup (xmlGeneSetData e vh entries) k =
      alookup ((xmlMemDoc e).filter keepTop) k := by
    intro k hk
    have hne : ∀ s : String,
        s ∈ ["standard_name", "systematic_name", "brief_description",
          "full_description", "collection", "source_species",
          "contributed_by", "contributor_organization", "exact_source",
          "license", "tags", "source_platform", "external_links",
          "source_publication", "related_gene_sets",
          "filtered_by_similarity", "dataset_references", "hallmark_info",
          "version_history"] → s ≠ k := by
      rcases hk with rfl | rfl <;> decide
    unfold xmlGeneSetData xmlPre
    rw [alookup_filter_append_of_ne]
    intro kv hkv
    simp only [List.mem_append] at hkv
    rcases hkv with ((((((((h | h) | h) | h) | h) | h) | h) | h) | h)
    · exact hne kv.1 (by have := xmlBase_keys e kv h; simp only [List.mem_cons, List.not_mem_nil, or_false] at this ⊢; tauto)
    · exact hne kv.1 (by rw [xmlPlatformDoc_keys e kv h]; simp)
    · exact hne kv.1 (by rw [xmlExtDoc_keys e kv h]; simp)
    · exact hne kv.1 (by rw [xmlPubDoc_keys e kv h]; simp)
    · exact hne kv.1 (by rw [xmlRelDoc_keys e entries kv h]; simp)
    · exact hne kv.1 (by rw [xmlFiltDoc_keys e kv h]; simp)
    · exact hne kv.1 (by rw [xmlDsDoc_keys e kv h]; simp)
    · exact hne kv.1 (by rw [xmlHallDoc_keys e kv h]; simp)
    · exact hne kv.1 (by rw [xmlVhDoc_keys e vh kv h]; simp)
  constructor
  · rw [key "num_members" (Or.inl rfl)]
    by_cases hm : parse_members_mapping (xget e "MEMBERS_MAPPING") = [] <;>
      simp [xmlMemDoc, keepTop, keepVal, List.filter, alookup_cons, hm]
  · rw [key "num_genes_mapped" (Or.inr rfl)]
    by_cases hm : parse_members_mapping (xget e "MEMBERS_MAPPING") = [] <;>
      simp [xmlMemDoc, keepTop, keepVal, List.filter, alookup_cons, hm]

/-- Both recomputed counters of the relational document. -/
theorem sql_counts (row : GsRow) (gsId : Int) (c : SqlCaches) (db : SqlDb)
    (vh : VersionHistory) (members : List Member) :
    alookup (sqlGeneSetData row gsId c db vh members) "num_members" =
      some (Val.num members.length) ∧
    alookup (sqlGeneSetData row gsId c db vh members) "num_genes_mapped" =
      some (Val.num (members.countP (fun m => m.gene_symbol ≠ none))) := by
  have key : ∀ k, (k = "num_members" ∨ k = "num_genes_mapped") →
      alookup (sqlGeneSetData row gsId c db vh members) k =
      alookup (sqlMemDoc members) k := by
    intro k hk
    have hne : ∀ s : String,
        s ∈ ["standard_name", "systematic_name", "brief_description",
          "full_description", "collection", "source_species",
          "contributed_by", "contributor_organization", "exact_source",
          "license", "tags", "source_platform", "external_links",
          "source_publication", "related_gene_sets",
          "filtered_by_similarity", "dataset_references", "hallmark_info",
          "version_history"] → s ≠ k := by
      rcases hk with rfl | rfl <;> decide
    unfold sqlGeneSetData
    rw [alookup_append_of_ne]
    intro kv hkv
    simp only [List.mem_append] at hkv
    rcases hkv with ((((((((h | h) | h) | h) | h) | h) | h) | h) | h)
    · exact hne kv.1 (by have := sqlBase_keys _ kv h; simp only [List.mem_cons, List.not_mem_nil, or_false] at this ⊢; tauto)
    · exact hne kv.1 (by rw [sqlPlatformDoc_keys _ kv h]; simp)
    · exact hne kv.1 (by rw [sqlExtDoc_keys _ _ kv h]; simp)
    · exact hne kv.1 (by rw [sqlPubDoc_keys _ _ kv h]; simp)
    · exact hne kv.1 (by rw [sqlRelDoc_keys _ _ _ kv h]; simp)
    · exact hne kv.1 (by rw [sqlFiltDoc_keys _ _ kv h]; simp)
    · exact hne kv.1 (by rw [sqlDsDoc_keys _ _ _ kv h]; simp)
    · exact hne kv.1 (by rw [sqlHallDoc_keys _ _ kv h]; simp)
    · exact hne kv.1 (by rw [sqlVhDoc_keys _ _ kv h]; simp)
  refine ⟨?_, ?_⟩
  · rw [key _ (Or.inl rfl)]
    simp [sqlMemDoc, alookup_cons]
  · rw [key _ (Or.inr rfl)]
    simp [sqlMemDoc, alookup_cons]

/-! # C1: the denormalized counters -/

/-- C1 (amended): for every exported gene set document of either variant,
num_members equals the length of the emitted member list, and
num_genes_mapped equals the number of members whose gene_symbol is
non-null (ncbi_gene_id is not consulted); both counters are recomputed
from the member list, never taken from upstream. -/
theorem counters_recomputed_from_member_list :
    ∀ (e : List (String × String)) (vh : VersionHistory)
      (entries : List XmlGs) (row : GsRow) (gsId : Int) (c : SqlCaches)
      (db : SqlDb) (vh' : VersionHistory) (members : List Member),
    (alookup (xmlGeneSetData e vh entries) "num_members" =
      some (Val.num (parse_members_mapping (xget e "MEMBERS_MAPPING")).length) ∧
     alookup (xmlGeneSetData e vh entries) "num_genes_mapped" =
      some (Val.num ((parse_members_mapping (xget e "MEMBERS_MAPPING")).countP
        (fun m => m.gene_symbol ≠ none)))) ∧
    (alookup (sqlGeneSetData row gsId c db vh' members) "num_members" =
      some (Val.num members.length) ∧
     alookup (sqlGeneSetData row gsId c db vh' members) "num_genes_mapped" =
      some (Val.num (members.countP (fun m => m.gene_symbol ≠ none)))) := by
  intro e vh entries row gsId c db vh' members
  exact ⟨xml_counts e vh entries, sql_counts row gsId c db vh' members⟩

/-- C1 counterexample: a member whose gene_symbol is present but whose
ncbi_gene_id is null is still counted by num_genes_mapped, so the claimed
equality with the both-fields-non-null count fails. -/
theorem counters_counterexample_ncbi_ignored :
    alookup (xmlGeneSetData
        [("STANDARD_NAME", "A"), ("MEMBERS_MAPPING", "10,TP53,x")] [] [])
      "num_genes_mapped" = some (Val.num 1) ∧
    (parse_members_mapping "10,TP53,x").countP
      (fun m => m.gene_symbol ≠ none ∧ m.ncbi_gene_id ≠ none) = 0 ∧
    (1 : Int) ≠ 0 := by
  refine ⟨?_, by decide, by decide⟩
  rw [(xml_counts _ _ _).2]
  rfl

/-! # C2: the worked member-mapping example -/

/-- C2 counterexample: on the spec's example string the second member's
gene_symbol is the empty string, not null, and num_genes_mapped is 2, not
the claimed 1. -/
theorem member_example_counterexample :
    (parse_members_mapping "1234,TP53,7157|5678,,").map Member.gene_symbol =
      [some "TP53", some ""] ∧
    alookup (xmlGeneSetData
        [("STANDARD_NAME", "GS"),
         ("MEMBERS_MAPPING", "1234,TP53,7157|5678,,")] [] [])
      "num_genes_mapped" = some (Val.num 2) ∧
    (some "" : Option String) ≠ none ∧ (2 : Int) ≠ 1 := by
  refine ⟨by decide, ?_, by decide, by decide⟩
  rw [(xml_counts _ _ _).2]
  rfl

/-- C2 (amended): the example string parses to two members, the second
with an empty-string gene_symbol and a null ncbi_gene_id; the derived
document has num_members 2 and num_genes_mapped 2. -/
theorem member_example_amended :
    parse_members_mapping "1234,TP53,7157|5678,," =
      [⟨"1234", some "TP53", some "7157"⟩, ⟨"5678", some "", none⟩] ∧
    alookup (xmlGeneSetData
        [("STANDARD_NAME", "GS"),
         ("MEMBERS_MAPPING", "1234,TP53,7157|5678,,")] [] [])
      "num_members" = some (Val.num 2) ∧
    alookup (xmlGeneSetData
        [("STANDARD_NAME", "GS"),
         ("MEMBERS_MAPPING", "1234,TP53,7157|5678,,")] [] [])
      "num_genes_mapped" = some (Val.num 2) := by
  refine ⟨by decide, ?_, ?_⟩
  · rw [(xml_counts _ _ _).1]
    rfl
  · rw [(xml_counts _ _ _).2]
    rfl

/-! # C10: the license field -/

theorem alookup_filter_cons_ne {q : String × Val → Bool} {k' k : String}
    (v : Val) (l : Doc) (hne : k' ≠ k) :
    alookup (((k', v) :: l).filter q) k = alookup (l.filter q) k := by
  cases hq : q (k', v) <;> simp [List.filter, hq, alookup_cons, hne]

theorem alookup_filter_cons_kept {q : String × Val → Bool} {k : String}
    (v : Val) (l : Doc) (hq : q (k, v) = true) :
    alookup (((k, v) :: l).filter q) k = some v := by
  simp [List.filter, hq, alookup_cons]

/-- The license entry of the filtered XML base dictionary. -/
theorem xmlBase_license (e : List (String × String)) :
    alookup ((xmlBase e).filter keepTop) "license" =
      some (Val.str "CC-BY-4.0") := by
  simp only [xmlBase]
  rw [alookup_filter_cons_ne _ _ (by decide)]
  rw [alookup_filter_cons_ne _ _ (by decide)]
  rw [alookup_filter_cons_ne _ _ (by decide)]
  rw [alookup_filter_cons_ne _ _ (by decide)]
  rw [alookup_filter_cons_ne _ _ (by decide)]
  rw [alookup_filter_cons_ne _ _ (by decide)]
  rw [alookup_filter_cons_ne _ _ (by decide)]
  rw [alookup_filter_cons_ne _ _ (by decide)]
  rw [alookup_filter_cons_ne _ _ (by decide)]
  rw [alookup_filter_cons_kept _ _ (by rfl)]

/-- C10: the XML variant emits the constant license CC-BY-4.0 for every
document, while the relational variant emits the license code read from
the database row. -/
theorem license_constant_vs_row :
    ∀ (e : List (String × String)) (vh : VersionHistory)
      (entries : List XmlGs) (row : GsRow) (gsId : Int) (c : SqlCaches)
      (db : SqlDb) (vh' : VersionHistory) (members : List Member),
    alookup (xmlGeneSetData e vh entries) "license" =
      some (Val.str "CC-BY-4.0") ∧
    alookup (sqlGeneSetData row gsId c db vh' members) "license" =
      some (optVal row.license_code) := by
  intro e vh entries row gsId c db vh' members
  constructor
  · unfold xmlGeneSetData xmlPre
    simp only [List.filter_append, alookup_append, xmlBase_license e,
      Option.or]
  · unfold sqlGeneSetData
    simp only [alookup_append]
    have : alookup (sqlBase (get_gene_set_basic_info row c)) "license" =
        some (optVal row.license_code) := by
      simp [sqlBase, alookup_cons, get_gene_set_basic_info]
    simp [this, Option.or]

/-! # C7: omission of empty fields -/

/-- C7 (amended): the XML variant's emitted document contains only
entries that are always-keep keys (full_description, tags) or have a
non-null, non-empty value, and the two always-keep keys are emitted even
when empty; the relational variant performs no top-level cleanup and
emits its base fields even when null. -/
theorem empty_field_omission_xml_only :
    ∀ (e : List (String × String)) (vh : VersionHistory)
      (entries : List XmlGs) (row : GsRow) (gsId : Int) (c : SqlCaches)
      (db : SqlDb) (vh' : VersionHistory) (members : List Member),
    ((xmlGeneSetData e vh entries).all keepTop = true) ∧
    (alookup (xmlGeneSetData e vh entries) "full_description" =
      some (optVal (orNone (xget e "DESCRIPTION_FULL")))) ∧
    (alookup (xmlGeneSetData e vh entries) "tags" =
      some (Val.list (if xget e "TAGS" ≠ "" then
        (pysplit (xget e "TAGS") ',').map Val.str else []))) ∧
    (alookup (sqlGeneSetData row gsId c db vh' members) "systematic_name" =
      some (optVal row.systematic_name)) := by
  intro e vh entries row gsId c db vh' members
  refine ⟨?_, ?_, ?_, ?_⟩
  · rw [List.all_eq_true]
    intro kv hkv
    exact List.of_mem_filter hkv
  · unfold xmlGeneSetData xmlPre
    simp only [List.filter_append, alookup_append]
    have : alookup ((xmlBase e).filter keepTop) "full_description" =
        some (optVal (orNone (xget e "DESCRIPTION_FULL"))) := by
      simp only [xmlBase]
      rw [alookup_filter_cons_ne _ _ (by decide)]
      rw [alookup_filter_cons_ne _ _ (by decide)]
      rw [alookup_filter_cons_ne _ _ (by decide)]
      rw [alookup_filter_cons_kept _ _ (by rfl)]
    simp [this, Option.or]
  · unfold xmlGeneSetData xmlPre
    simp only [List.filter_append, alookup_append]
    have : alookup ((xmlBase e).filter keepTop) "tags" =
        some (Val.list (if xget e "TAGS" ≠ "" then
          (pysplit (xget e "TAGS") ',').map Val.str else [])) := by
      simp only [xmlBase]
      rw [alookup_filter_cons_ne _ _ (by decide)]
      rw [alookup_filter_cons_ne _ _ (by decide)]
      rw [alookup_filter_cons_ne _ _ (by decide)]
      rw [alookup_filter_cons_ne _ _ (by decide)]
      rw [alookup_filter_cons_ne _ _ (by decide)]
      rw [alookup_filter_cons_ne _ _ (by decide)]
      rw [alookup_filter_cons_ne _ _ (by decide)]
      rw [alookup_filter_cons_ne _ _ (by decide)]
      rw [alookup_filter_cons_ne _ _ (by decide)]
      rw [alookup_filter_cons_ne _ _ (by decide)]
      rw [alookup_filter_cons_kept _ _ (by rfl)]
    simp [this, Option.or]
  · unfold sqlGeneSetData
    simp only [alookup_append]
    have : alookup (sqlBase (get_gene_set_basic_info row c))
        "systematic_name" = some (optVal row.systematic_name) := by
      simp [sqlBase, alookup_cons, get_gene_set_basic_info]
    simp [this, Option.or]

/-- C7 counterexample: the relational variant emits a base field whose
value is null instead of omitting it (here on a row with a null
systematic name and otherwise empty auxiliary data). -/
theorem empty_field_emitted_by_sql_variant :
    alookup (sqlGeneSetData
        ⟨"A", none, none, none, none, none, none, none, none, none, none,
         none, none, none, none⟩ 1
        ⟨[], [], [], [], [], [], []⟩ ⟨[], [], [], []⟩ [] [])
      "systematic_name" = some Val.null ∧ ¬ keepVal Val.null = true := by
  exact ⟨rfl, by decide⟩

/-! # C8: resume mode -/

theorem alookup_filter_ne_key (fs : FS) (fname f : String) (h : f ≠ fname) :
    alookup (fs.filter (fun p => ¬ p.1 = fname)) f = alookup fs f := by
  induction fs with
  | nil => rfl
  | cons kv rest ih =>
    obtain ⟨k, v⟩ := kv
    by_cases hk : k = fname
    · subst hk
      have hkf : k ≠ f := fun hh => h hh.symm
      simp only [decide_not] at ih
      simp [List.filter_cons, alookup_cons, hkf, ih]
    · simp only [decide_not] at ih
      simp [List.filter_cons, hk, alookup_cons, ih]

/-- C8: in resume mode the per-entity export leaves the destination
untouched (so every existing file keeps its content) when the entity's
file already exists, and otherwise writes exactly that entity's file,
leaving every other file unchanged. -/
theorem resume_skips_existing_writes_missing :
    ∀ (e : List (String × String)) (vh : VersionHistory)
      (entries : List XmlGs) (fs : FS) (row : GsRow) (gsId : Int)
      (c : SqlCaches) (db : SqlDb) (vh' : VersionHistory)
      (members : List Member),
    (fsExists fs (xget e "STANDARD_NAME" ++ ".yaml") = true →
       (export_gene_set_to_yaml_xml e vh entries true fs).2 = fs) ∧
    (fsExists fs (xget e "STANDARD_NAME" ++ ".yaml") = false →
     xget e "STANDARD_NAME" ≠ "" →
       alookup (export_gene_set_to_yaml_xml e vh entries true fs).2
           (xget e "STANDARD_NAME" ++ ".yaml") =
         some (xmlGeneSetData e vh entries) ∧
       ∀ f, f ≠ xget e "STANDARD_NAME" ++ ".yaml" →
         alookup (export_gene_set_to_yaml_xml e vh entries true fs).2 f =
           alookup fs f) ∧
    (fsExists fs (row.standard_name ++ ".yaml") = true →
       (export_gene_set_to_yaml_sql (some row) gsId c db vh' members
         true fs).2 = fs) ∧
    (fsExists fs (row.standard_name ++ ".yaml") = false →
       alookup (export_gene_set_to_yaml_sql (some row) gsId c db vh'
           members true fs).2 (row.standard_name ++ ".yaml") =
         some (sqlGeneSetData row gsId c db vh' members) ∧
       ∀ f, f ≠ row.standard_name ++ ".yaml" →
         alookup (export_gene_set_to_yaml_sql (some row) gsId c db vh'
             members true fs).2 f = alookup fs f) := by
  intro e vh entries fs row gsId c db vh' members
  refine ⟨?_, ?_, ?_, ?_⟩
  · intro hex
    unfold export_gene_set_to_yaml_xml
    by_cases hn : xget e "STANDARD_NAME" = "" <;> simp [hn, hex]
  · intro hex hn
    unfold export_gene_set_to_yaml_xml
    rw [if_neg hn, if_neg (by simp [hex])]
    constructor
    · simp [fsWrite, alookup_cons]
    · intro f hf
      show alookup (fsWrite fs (xget e "STANDARD_NAME" ++ ".yaml")
        (xmlGeneSetData e vh entries)) f = alookup fs f
      unfold fsWrite
      rw [alookup_cons, if_neg (fun hh => hf hh.symm)]
      exact alookup_filter_ne_key fs _ f hf
  · intro hex
    unfold export_gene_set_to_yaml_sql
    simp only []
    rw [if_pos (by simp [hex])]
  · intro hex
    unfold export_gene_set_to_yaml_sql
    simp only []
    rw [if_neg (by simp [hex])]
    constructor
    · simp [fsWrite, alookup_cons]
    · intro f hf
      show alookup (fsWrite fs (row.standard_name ++ ".yaml")
        (sqlGeneSetData row gsId c db vh' members)) f = alookup fs f
      unfold fsWrite
      rw [alookup_cons, if_neg (fun hh => hf hh.symm)]
      exact alookup_filter_ne_key fs _ f hf

/-- C8 witness: a directory already holding A.yaml is untouched, and an
empty directory gains exactly A.yaml. -/
theorem resume_skips_existing_writes_missing_witness :
    (export_gene_set_to_yaml_xml [("STANDARD_NAME", "A")] [] [] true
      [("A.yaml", [])]).2 = [("A.yaml", [])] ∧
    alookup (export_gene_set_to_yaml_xml [("STANDARD_NAME", "A")] [] []
        true []).2 "A.yaml" =
      some (xmlGeneSetData [("STANDARD_NAME", "A")] [] []) := by
  constructor
  · exact (resume_skips_existing_writes_missing [("STANDARD_NAME", "A")]
      [] [] [("A.yaml", [])] ⟨"", none, none, none, none, none, none, none,
        none, none, none, none, none, none, none⟩ 0
      ⟨[], [], [], [], [], [], []⟩ ⟨[], [], [], []⟩ [] []).1 rfl
  · exact ((resume_skips_existing_writes_missing [("STANDARD_NAME", "A")]
      [] [] [] ⟨"", none, none, none, none, none, none, none,
        none, none, none, none, none, none, none⟩ 0
      ⟨[], [], [], [], [], [], []⟩ ⟨[], [], [], []⟩ [] []).2.1 rfl
      (by decide)).1

/-! # C4 and C5: the relationship queries -/

theorem lexLeChars_total : ∀ a b : List Char,
    lexLeChars a b = true ∨ lexLeChars b a = true := by
  intro a
  induction a with
  | nil => intro b; left; rfl
  | cons x xs ih =>
    intro b
    cases b with
    | nil => right; rfl
    | cons y ys =>
      by_cases hxy : x = y
      · subst hxy
        simp only [lexLeChars, if_pos rfl]
        exact ih ys
      · rcases lt_or_gt_of_ne hxy with hlt | hgt
        · left; simp [lexLeChars, hxy, hlt]
        · right; simp [lexLeChars, Ne.symm hxy, hgt]

theorem lexLeChars_trans : ∀ a b c : List Char,
    lexLeChars a b = true → lexLeChars b c = true →
    lexLeChars a c = true := by
  intro a
  induction a with
  | nil => intro b c _ _; rfl
  | cons x xs ih =>
    intro b c hab hbc
    cases b with
    | nil => simp [lexLeChars] at hab
    | cons y ys =>
      cases c with
      | nil => simp [lexLeChars] at hbc
      | cons z zs =>
        by_cases hxy : x = y <;> by_cases hyz : y = z
        · subst hxy; subst hyz
          simp only [lexLeChars, if_pos rfl] at hab hbc ⊢
          exact ih ys zs hab hbc
        · subst hxy
          simp only [lexLeChars, if_pos rfl] at hab
          simp only [lexLeChars, if_neg hyz] at hbc ⊢
          exact hbc
        · subst hyz
          simp only [lexLeChars, if_neg hxy] at hab
          simp only [lexLeChars, if_neg hxy]
          exact hab
        · simp only [lexLeChars, if_neg hxy] at hab
          simp only [lexLeChars, if_neg hyz] at hbc
          have hxz : x < z :=
            lt_trans (of_decide_eq_true hab) (of_decide_eq_true hbc)
          simp [lexLeChars, ne_of_lt hxz, hxz]

instance : IsTotal String (fun a b => lexLe a b = true) :=
  ⟨fun a b => lexLeChars_total a.toList b.toList⟩

instance : IsTrans String (fun a b => lexLe a b = true) :=
  ⟨fun _ _ _ => lexLeChars_trans _ _ _⟩

theorem pubRowLe_total (r s : PubRow) :
    pubRowLe r s = true ∨ pubRowLe s r = true := by
  unfold pubRowLe
  rcases lt_trichotomy r.pubId s.pubId with h | h | h
  · left; simp [h]
  · rcases lexLeChars_total r.name.toList s.name.toList with hl | hl
    · left; simp [h, lexLe]; exact hl
    · right; simp [h.symm, lexLe]; exact hl
  · right; simp [h]

theorem pubRowLe_trans (r s t : PubRow) (h1 : pubRowLe r s = true)
    (h2 : pubRowLe s t = true) : pubRowLe r t = true := by
  unfold pubRowLe at h1 h2 ⊢
  simp only [Bool.or_eq_true, Bool.and_eq_true, decide_eq_true_eq] at h1 h2 ⊢
  rcases h1 with h1 | ⟨h1e, h1l⟩ <;> rcases h2 with h2 | ⟨h2e, h2l⟩
  · exact Or.inl (lt_trans h1 h2)
  · exact Or.inl (h2e ▸ h1)
  · exact Or.inl (by rw [h1e]; exact h2)
  · exact Or.inr ⟨h1e.trans h2e, lexLeChars_trans _ _ _ h1l h2l⟩

instance : IsTotal PubRow (fun r s => pubRowLe r s = true) :=
  ⟨pubRowLe_total⟩

instance : IsTrans PubRow (fun r s => pubRowLe r s = true) :=
  ⟨pubRowLe_trans⟩

theorem authorRowLe_total (r s : AuthorRow) :
    authorRowLe r s = true ∨ authorRowLe s r = true := by
  unfold authorRowLe
  rcases lt_trichotomy r.authorId s.authorId with h | h | h
  · left; simp [h]
  · rcases lexLeChars_total r.name.toList s.name.toList with hl | hl
    · left; simp [h, lexLe]; exact hl
    · right; simp [h.symm, lexLe]; exact hl
  · right; simp [h]

theorem authorRowLe_trans (r s t : AuthorRow) (h1 : authorRowLe r s = true)
    (h2 : authorRowLe s t = true) : authorRowLe r t = true := by
  unfold authorRowLe at h1 h2 ⊢
  simp only [Bool.or_eq_true, Bool.and_eq_true, decide_eq_true_eq] at h1 h2 ⊢
  rcases h1 with h1 | ⟨h1e, h1l⟩ <;> rcases h2 with h2 | ⟨h2e, h2l⟩
  · exact Or.inl (lt_trans h1 h2)
  · exact Or.inl (h2e ▸ h1)
  · exact Or.inl (by rw [h1e]; exact h2)
  · exact Or.inr ⟨h1e.trans h2e, lexLeChars_trans _ _ _ h1l h2l⟩

instance : IsTotal AuthorRow (fun r s => authorRowLe r s = true) :=
  ⟨authorRowLe_total⟩

instance : IsTrans AuthorRow (fun r s => authorRowLe r s = true) :=
  ⟨authorRowLe_trans⟩

/-- With unique standard names (the corpus invariant), the all_gene_sets
lookup of a cached entry's name returns that entry. -/
theorem xmlLookupGs_eq_of_mem (entries : List XmlGs)
    (hnd : (entries.map XmlGs.name).Nodup) (g : XmlGs) (hg : g ∈ entries) :
    xmlLookupGs entries g.name = some g := by
  unfold xmlLookupGs
  have hgr : g ∈ entries.reverse := List.mem_reverse.mpr hg
  have hsome : (entries.reverse.find? (fun x => x.name = g.name)).isSome :=
    List.find?_isSome.mpr ⟨g, hgr, by simp⟩
  obtain ⟨g', hfind⟩ := Option.isSome_iff_exists.mp hsome
  have hmem' : g' ∈ entries :=
    List.mem_reverse.mp (List.mem_of_find?_eq_some hfind)
  have hname : g'.name = g.name := by
    have := List.find?_some hfind
    simpa using this
  have hp : List.Pairwise (fun x y : XmlGs => x.name ≠ y.name) entries :=
    List.pairwise_map.mp hnd
  have hsym : Symmetric (fun x y : XmlGs => x.name ≠ y.name) :=
    fun x y hxy he => hxy he.symm
  rw [hfind]
  congr 1
  by_contra hne
  exact hp.forall hsym hmem' hg hne hname

/-- Two gene_set rows with the same standard name are the same row when
names are unique. -/
theorem geneSets_eq_of_name_eq {db : SqlDb}
    (hnd : (db.geneSets.map Prod.snd).Nodup) {a b : Int × String}
    (ha : a ∈ db.geneSets) (hb : b ∈ db.geneSets) (hab : a.2 = b.2) :
    a = b := by
  have hp : List.Pairwise (fun x y : Int × String => x.2 ≠ y.2)
      db.geneSets := List.pairwise_map.mp hnd
  have hsym : Symmetric (fun x y : Int × String => x.2 ≠ y.2) :=
    fun x y hxy he => hxy he.symm
  by_contra hne
  exact hp.forall hsym ha hb hne hab

/-- The names of the publication group, restricted to one publication, are
pairwise in lexicographic order (the ORDER BY of the preload query). -/
theorem pubGroup_pairwise (db : SqlDb) (p : Int) :
    (List.filter (fun r => decide (r.pubId = p)) (pubRowsSorted db)).Pairwise
      (fun r s : PubRow => lexLe r.name s.name = true) := by
  have h0 : (pubRowsSorted db).Pairwise (fun r s => pubRowLe r s = true) :=
    List.sorted_insertionSort _ _
  refine (h0.filter _).imp_of_mem ?_
  intro a b ha hb hab
  have hap : a.pubId = p := by simpa using List.of_mem_filter ha
  have hbp : b.pubId = p := by simpa using List.of_mem_filter hb
  unfold pubRowLe at hab
  simp only [Bool.or_eq_true, Bool.and_eq_true, decide_eq_true_eq] at hab
  rcases hab with h | ⟨_, hh⟩
  · rw [hap, hbp] at h
    exact absurd h (lt_irrefl p)
  · exact hh

/-- Membership in a publication group traces back to a gene_set row and a
details row of the database. -/
theorem mem_sqlByPublication (db : SqlDb) (p : Int) (pair : Int × String)
    (h : pair ∈ sqlByPublication db p) :
    ∃ gs ∈ db.geneSets, ∃ d ∈ db.details,
      d.1 = gs.1 ∧ d.2 = some p ∧ pair = (gs.1, gs.2) := by
  unfold sqlByPublication at h
  rw [List.mem_map] at h
  obtain ⟨r, hr, rfl⟩ := h
  have hrp : r.pubId = p := by simpa using List.of_mem_filter hr
  have hr2 : r ∈ pubRowsSorted db := List.mem_of_mem_filter hr
  unfold pubRowsSorted at hr2
  rw [List.mem_insertionSort] at hr2
  unfold pubJoinRows at hr2
  rw [List.mem_flatMap] at hr2
  obtain ⟨gs, hgs, hr3⟩ := hr2
  rw [List.mem_filterMap] at hr3
  obtain ⟨d, hd, hopt⟩ := hr3
  by_cases hdg : d.1 = gs.1
  · rw [if_pos hdg] at hopt
    cases hd2 : d.2 with
    | none => rw [hd2] at hopt; simp at hopt
    | some q =>
      rw [hd2] at hopt
      simp only [Option.map_some'] at hopt
      obtain rfl := Option.some_injective _ hopt
      exact ⟨gs, hgs, d, hd, hdg, by rw [hd2, ← hrp], rfl⟩
  · rw [if_neg hdg] at hopt
    simp at hopt

/-- C4: both related-by-publication queries return a list that excludes
the entity's own identifier (for the relational variant under the corpus
invariant that standard names are unique), excludes every name of the
fixed exclusion set, and is sorted lexicographically. -/
theorem related_by_publication_properties :
    ∀ (entries : List XmlGs) (name : String) (db : SqlDb) (gsId : Int)
      (pubId : Option Int) (own : String),
    (name ∉ xmlGetRelatedByPublication entries name ∧
     (∀ x ∈ xmlGetRelatedByPublication entries name,
        x ∉ EXCLUDED_FROM_RELATED_GENE_SETS_XML) ∧
     (xmlGetRelatedByPublication entries name).Pairwise
       (fun a b => lexLe a b = true)) ∧
    (((gsId, own) ∈ db.geneSets → (db.geneSets.map Prod.snd).Nodup →
        own ∉ sqlGetRelatedByPublication db gsId pubId) ∧
     (∀ x ∈ sqlGetRelatedByPublication db gsId pubId,
        x ∉ EXCLUDED_FROM_RELATED_GENE_SETS_SQL) ∧
     (sqlGetRelatedByPublication db gsId pubId).Pairwise
       (fun a b => lexLe a b = true)) := by
  intro entries name db gsId pubId own
  refine ⟨⟨?_, ?_, ?_⟩, ?_, ?_, ?_⟩
  · unfold xmlGetRelatedByPublication
    split
    · simp
    · split
      · simp
      · intro hmem
        rw [pysorted, List.mem_insertionSort] at hmem
        have := List.of_mem_filter hmem
        simp at this
  · intro x hx
    simp [EXCLUDED_FROM_RELATED_GENE_SETS_XML]
  · unfold xmlGetRelatedByPublication
    split
    · simp
    · split
      · simp
      · exact List.sorted_insertionSort _ _
  · intro hmem hnd hx
    unfold sqlGetRelatedByPublication at hx
    split at hx
    · simp at hx
    · rename_i p
      split at hx
      · simp at hx
      · rw [List.mem_map] at hx
        obtain ⟨pair, hpair, hsnd⟩ := hx
        have hc := List.of_mem_filter hpair
        simp only [decide_eq_true_eq] at hc
        obtain ⟨gs, hgs, d, hd, hdg, hdp, hpe⟩ :=
          mem_sqlByPublication db p pair (List.mem_of_mem_filter hpair)
        have hown : (gsId, own).2 = gs.2 := by
          rw [← hsnd, hpe]
        have := geneSets_eq_of_name_eq hnd hmem hgs hown
        apply hc.1
        rw [hpe]
        simp [← this]
  · intro x hx
    simp [EXCLUDED_FROM_RELATED_GENE_SETS_SQL]
  · unfold sqlGetRelatedByPublication
    split
    · simp
    · rename_i p
      split
      · simp
      · rw [List.pairwise_map]
        unfold sqlByPublication
        rw [List.filter_map, List.pairwise_map]
        exact ((pubGroup_pairwise db p).filter _).imp_of_mem
          (fun _ _ h => h)

/-- C4 witness: in a two-entity corpus sharing a publication, the query
for entity 1 does not return its own name. -/
theorem related_by_publication_properties_witness :
    "A" ∉ sqlGetRelatedByPublication
      ⟨[(1, "A"), (2, "B")], [(1, some 5), (2, some 5)], [], [5]⟩
      1 (some 5) :=
  (related_by_publication_properties [] "A"
    ⟨[(1, "A"), (2, "B")], [(1, some 5), (2, some 5)], [], [5]⟩
    1 (some 5) "A").2.1 (by decide) (by decide)

/-- Membership in an author group traces back to a gene_set row and a
details row of the database. -/
theorem mem_sqlByAuthor_trace (db : SqlDb) (a : Int) (r : AuthorRow)
    (h : r ∈ sqlByAuthor db a) :
    ∃ gs ∈ db.geneSets, ∃ d ∈ db.details,
      d.1 = gs.1 ∧ d.2 = some r.pubId ∧ r.gsId = gs.1 ∧ r.name = gs.2 := by
  unfold sqlByAuthor at h
  have h2 : r ∈ authorRowsSorted db := List.mem_of_mem_filter h
  unfold authorRowsSorted at h2
  rw [List.mem_insertionSort] at h2
  unfold authorJoinRows at h2
  rw [List.mem_flatMap] at h2
  obtain ⟨gs, hgs, h3⟩ := h2
  rw [List.mem_flatMap] at h3
  obtain ⟨d, hd, h4⟩ := h3
  by_cases hdg : d.1 = gs.1
  · rw [if_pos hdg] at h4
    cases hd2 : d.2 with
    | none => rw [hd2] at h4; simp at h4
    | some q =>
      rw [hd2] at h4
      rw [List.mem_filterMap] at h4
      obtain ⟨pa, hpa, hopt⟩ := h4
      by_cases hpap : pa.1 = q
      · rw [if_pos hpap] at hopt
        obtain rfl := Option.some_injective _ hopt
        exact ⟨gs, hgs, d, hd, hdg, by rw [hd2], rfl, rfl⟩
      · rw [if_neg hpap] at hopt
        simp at hopt
  · rw [if_neg hdg] at h4
    simp at h4

/-- Every name returned by the relational related-by-authors query comes
from a gene set whose details row names a different publication. -/
theorem relAuthors_mem_trace (db : SqlDb) (gsId : Int)
    (pubId : Option Int) (x : String)
    (hx : x ∈ sqlGetRelatedByAuthors db gsId pubId) :
    ∃ p, pubId = some p ∧
      ∃ gs ∈ db.geneSets, ∃ d ∈ db.details, ∃ q,
        d.1 = gs.1 ∧ d.2 = some q ∧ q ≠ p ∧ gs.1 ≠ gsId ∧ x = gs.2 := by
  unfold sqlGetRelatedByAuthors at hx
  split at hx
  · simp at hx
  · rename_i p
    split at hx
    · simp at hx
    · split at hx
      · simp at hx
      · split at hx
        · simp at hx
        · rw [pysorted, List.mem_insertionSort, List.mem_dedup,
            List.mem_flatMap] at hx
          obtain ⟨a, ha, hx2⟩ := hx
          rw [List.mem_map] at hx2
          obtain ⟨r, hr, rfl⟩ := hx2
          have hcond := List.of_mem_filter hr
          simp only [decide_eq_true_eq] at hcond
          obtain ⟨gs, hgs, d, hd, hdg, hdq, hrg, hrn⟩ :=
            mem_sqlByAuthor_trace db a r (List.mem_of_mem_filter hr)
          refine ⟨p, rfl, gs, hgs, d, hd, r.pubId, hdg, hdq,
            hcond.2, ?_, hrn⟩
          rw [← hrg]
          exact hcond.1

/-- Every name returned by the relational related-by-publication query
comes from a gene set whose details row names that same publication. -/
theorem relPub_mem_trace (db : SqlDb) (gsId : Int) (pubId : Option Int)
    (x : String) (hx : x ∈ sqlGetRelatedByPublication db gsId pubId) :
    ∃ p, pubId = some p ∧ ∃ gs ∈ db.geneSets, ∃ d ∈ db.details,
      d.1 = gs.1 ∧ d.2 = some p ∧ gs.1 ≠ gsId ∧ x = gs.2 := by
  unfold sqlGetRelatedByPublication at hx
  split at hx
  · simp at hx
  · rename_i p
    split at hx
    · simp at hx
    · rw [List.mem_map] at hx
      obtain ⟨pair, hpair, hsnd⟩ := hx
      have hc := List.of_mem_filter hpair
      simp only [decide_eq_true_eq] at hc
      obtain ⟨gs, hgs, d, hd, hdg, hdp, hpe⟩ :=
        mem_sqlByPublication db p pair (List.mem_of_mem_filter hpair)
      refine ⟨p, rfl, gs, hgs, d, hd, hdg, hdp, ?_, ?_⟩
      · rw [hpe] at hc
        exact hc.1
      · rw [← hsnd, hpe]

/-- C5: for every entity, related-by-authors excludes the entity itself,
and (under the corpus invariants: unique standard names and one details
row per gene set) is disjoint from related-by-publication, in both
variants. -/
theorem related_by_authors_disjoint :
    ∀ (entries : List XmlGs) (name : String) (db : SqlDb) (gsId : Int)
      (pubId : Option Int) (own : String),
    (name ∉ xmlGetRelatedByAuthors entries name) ∧
    ((entries.map XmlGs.name).Nodup →
      ∀ x ∈ xmlGetRelatedByPublication entries name,
        x ∉ xmlGetRelatedByAuthors entries name) ∧
    ((gsId, own) ∈ db.geneSets → (db.geneSets.map Prod.snd).Nodup →
        own ∉ sqlGetRelatedByAuthors db gsId pubId) ∧
    ((db.geneSets.map Prod.snd).Nodup →
     (∀ d ∈ db.details, ∀ d' ∈ db.details, d.1 = d'.1 → d.2 = d'.2) →
      ∀ x ∈ sqlGetRelatedByPublication db gsId pubId,
        x ∉ sqlGetRelatedByAuthors db gsId pubId) := by
  intro entries name db gsId pubId own
  refine ⟨?_, ?_, ?_, ?_⟩
  · unfold xmlGetRelatedByAuthors
    split
    · simp
    · split
      · simp
      · intro hmem
        rw [pysorted, List.mem_insertionSort, List.mem_dedup,
          List.mem_flatMap] at hmem
        obtain ⟨a, ha, hmem2⟩ := hmem
        have := List.of_mem_filter hmem2
        simp at this
  · intro hnd x hpub hauth
    unfold xmlGetRelatedByPublication at hpub
    split at hpub
    · simp at hpub
    · rename_i info1 heq1
      split at hpub
      · simp at hpub
      · rw [pysorted, List.mem_insertionSort] at hpub
        have hm1 : x ∈ xmlByPmid entries info1.pmid :=
          List.mem_of_mem_filter hpub
        unfold xmlByPmid at hm1
        rw [List.mem_map] at hm1
        obtain ⟨g, hgf, hgname⟩ := hm1
        have hgcond := List.of_mem_filter hgf
        simp only [decide_eq_true_eq] at hgcond
        have hgmem : g ∈ entries := List.mem_of_mem_filter hgf
        unfold xmlGetRelatedByAuthors at hauth
        split at hauth
        · simp at hauth
        · rename_i info2 heq2
          have hinfo : info2 = info1 := by
            rw [heq1] at heq2
            exact (Option.some_injective _ heq2).symm
          split at hauth
          · simp at hauth
          · rw [pysorted, List.mem_insertionSort, List.mem_dedup,
              List.mem_flatMap] at hauth
            obtain ⟨a, ha, hauth2⟩ := hauth
            have hcond := List.of_mem_filter hauth2
            rw [Bool.and_eq_true] at hcond
            have hlook : xmlLookupGs entries x = some g := by
              rw [← hgname]
              exact xmlLookupGs_eq_of_mem entries hnd g hgmem
            rw [hlook] at hcond
            have : g.pmid ≠ info2.pmid := by
              have := hcond.2
              simpa using this
            rw [hinfo] at this
            exact this hgcond.2
  · intro hmem hnd hx
    obtain ⟨p, rfl, gs, hgs, d, hd, q, hdg, hdq, hqp, hne, hxg⟩ :=
      relAuthors_mem_trace db gsId pubId own hx
    have : (gsId, own) = gs := geneSets_eq_of_name_eq hnd hmem hgs hxg
    apply hne
    rw [← this]
  · intro hnd hdet x hpub hauth
    obtain ⟨p, hpeq, gs', hgs', d', hd', q, hdg', hdq', hqp, hne', hxg'⟩ :=
      relAuthors_mem_trace db gsId pubId x hauth
    subst hpeq
    obtain ⟨p2, hp2, gs, hgs, d, hd, hdg, hdp, hne, hxg⟩ :=
      relPub_mem_trace db gsId (some p) x hpub
    obtain rfl : p2 = p := by injection hp2 with hh; exact hh.symm
    have hxx : gs.2 = gs'.2 := by rw [← hxg, ← hxg']
    have hgg : gs = gs' := geneSets_eq_of_name_eq hnd hgs hgs' hxx
    have hdd : d.2 = d'.2 := by
      apply hdet d hd d' hd'
      rw [hdg, hdg', hgg]
    rw [hdp, hdq'] at hdd
    apply hqp
    injection hdd with hh
    exact hh.symm

/-- C5 witness: in a three-entity corpus (A and B sharing publication 5,
C on publication 7, all by the same author), the by-authors list of A
contains neither A itself nor the by-publication entry B. -/
theorem related_by_authors_disjoint_witness :
    "B" ∉ xmlGetRelatedByAuthors
      [⟨"A", "5", "X, Y"⟩, ⟨"B", "5", "X"⟩, ⟨"C", "7", "X"⟩] "A" ∧
    "A" ∉ sqlGetRelatedByAuthors
      ⟨[(1, "A"), (2, "B"), (3, "C")],
       [(1, some 5), (2, some 5), (3, some 7)],
       [(5, 100), (7, 100)], [5, 7]⟩ 1 (some 5) ∧
    "B" ∉ sqlGetRelatedByAuthors
      ⟨[(1, "A"), (2, "B"), (3, "C")],
       [(1, some 5), (2, some 5), (3, some 7)],
       [(5, 100), (7, 100)], [5, 7]⟩ 1 (some 5) := by
  refine ⟨?_, ?_, ?_⟩
  · exact (related_by_authors_disjoint
      [⟨"A", "5", "X, Y"⟩, ⟨"B", "5", "X"⟩, ⟨"C", "7", "X"⟩] "A"
      ⟨[], [], [], []⟩ 1 (some 5) "A").2.1 (by decide) "B" (by decide)
  · exact (related_by_authors_disjoint [] "A"
      ⟨[(1, "A"), (2, "B"), (3, "C")],
       [(1, some 5), (2, some 5), (3, some 7)],
       [(5, 100), (7, 100)], [5, 7]⟩ 1 (some 5) "A").2.2.1
      (by decide) (by decide)
  · exact (related_by_authors_disjoint [] "A"
      ⟨[(1, "A"), (2, "B"), (3, "C")],
       [(1, some 5), (2, some 5), (3, some 7)],
       [(5, 100), (7, 100)], [5, 7]⟩ 1 (some 5) "A").2.2.2
      (by decide) (by decide) "B" (by decide)

/-! # C6 and C9: the sanitizer

The idempotence argument: every chunk the escape pass emits is, when
rescanned in the state the pass was in when it emitted it, copied
verbatim and leads the rescanner through the same states. -/

theorem startsWithChars_append (p t : List Char) :
    startsWithChars p (p ++ t) = true := by
  induction p with
  | nil => rfl
  | cons c ps ih => simp [startsWithChars, ih]

theorem startsWithChars_exists {p l : List Char}
    (h : startsWithChars p l = true) : ∃ t, l = p ++ t := by
  induction p generalizing l with
  | nil => exact ⟨l, rfl⟩
  | cons c ps ih =>
    cases l with
    | nil => simp [startsWithChars] at h
    | cons d rest =>
      simp only [startsWithChars, Bool.and_eq_true, decide_eq_true_eq] at h
      obtain ⟨t, ht⟩ := ih h.2
      exact ⟨t, by rw [h.1, ht]; rfl⟩

theorem copyEntity_append_semi (pre w : List Char)
    (h : ∀ c ∈ pre, c ≠ ';') :
    copyEntity (pre ++ ';' :: w) = (pre ++ [';'], w) := by
  induction pre with
  | nil => simp [copyEntity]
  | cons c ps ih =>
    have hc : c ≠ ';' := h c (by simp)
    have ih' := ih (fun d hd => h d (by simp [hd]))
    show copyEntity (c :: (ps ++ ';' :: w)) = (c :: (ps ++ [';']), w)
    unfold copyEntity
    rw [if_neg hc]
    simp [ih']

theorem digitsThenSemi_decomp {l : List Char} (h : digitsThenSemi l = true) :
    ∃ ds w, l = ds ++ ';' :: w ∧ ∀ c ∈ ds, c.isDigit = true := by
  induction l with
  | nil => simp [digitsThenSemi] at h
  | cons c rest ih =>
    by_cases hc : c = ';'
    · exact ⟨[], rest, by rw [hc]; rfl, by simp⟩
    · rw [digitsThenSemi, if_neg hc, Bool.and_eq_true] at h
      obtain ⟨ds, w, hw, hds⟩ := ih h.2
      refine ⟨c :: ds, w, by rw [hw]; rfl, ?_⟩
      intro x hx
      rcases List.mem_cons.mp hx with rfl | hx
      · exact h.1
      · exact hds x hx

theorem digitsThenSemi_append (ds w : List Char)
    (h : ∀ c ∈ ds, c.isDigit = true) :
    digitsThenSemi (ds ++ ';' :: w) = true := by
  induction ds with
  | nil => simp [digitsThenSemi]
  | cons c rest ih =>
    have hc : c.isDigit = true := h c (by simp)
    have hcs : c ≠ ';' := by
      intro hh
      rw [hh] at hc
      simp [Char.isDigit] at hc
    show digitsThenSemi (c :: (rest ++ ';' :: w)) = true
    rw [digitsThenSemi, if_neg hcs, Bool.and_eq_true]
    exact ⟨hc, ih (fun d hd => h d (by simp [hd]))⟩

theorem hexThenSemi_decomp {l : List Char} (h : hexThenSemi l = true) :
    ∃ ds w, l = ds ++ ';' :: w ∧ ∀ c ∈ ds, pyIsHexDigit c = true := by
  induction l with
  | nil => simp [hexThenSemi] at h
  | cons c rest ih =>
    by_cases hc : c = ';'
    · exact ⟨[], rest, by rw [hc]; rfl, by simp⟩
    · rw [hexThenSemi, if_neg hc, Bool.and_eq_true] at h
      obtain ⟨ds, w, hw, hds⟩ := ih h.2
      refine ⟨c :: ds, w, by rw [hw]; rfl, ?_⟩
      intro x hx
      rcases List.mem_cons.mp hx with rfl | hx
      · exact h.1
      · exact hds x hx

theorem hexThenSemi_append (ds w : List Char)
    (h : ∀ c ∈ ds, pyIsHexDigit c = true) :
    hexThenSemi (ds ++ ';' :: w) = true := by
  induction ds with
  | nil => simp [hexThenSemi]
  | cons c rest ih =>
    have hc : pyIsHexDigit c = true := h c (by simp)
    have hcs : c ≠ ';' := by
      intro hh
      rw [hh] at hc
      simp [pyIsHexDigit, Char.isDigit] at hc
    show hexThenSemi (c :: (rest ++ ';' :: w)) = true
    rw [hexThenSemi, if_neg hcs, Bool.and_eq_true]
    exact ⟨hc, ih (fun d hd => h d (by simp [hd]))⟩

theorem take_append_semi (ds z : List Char) (n : Nat)
    (h : ds.length < n) :
    (ds ++ ';' :: z).take n = ds ++ ';' :: z.take (n - ds.length - 1) := by
  rw [List.take_append_eq_append_take]
  rw [List.take_of_length_le (le_of_lt h)]
  congr 1
  obtain ⟨k, hk⟩ : ∃ k, n - ds.length = k + 1 :=
    ⟨n - ds.length - 1, by omega⟩
  rw [hk]
  rw [List.take_succ_cons]
  congr 2

/-- A recognized entity at an ampersand decomposes the input as the
entity body, its terminating semicolon, and the remainder, and stays
recognized whatever follows the semicolon. -/
theorem entity_split {rest : List Char}
    (h : entityAt ('&' :: rest) = true) :
    ∃ mid w, rest = mid ++ ';' :: w ∧ (∀ c ∈ mid, c ≠ ';') ∧
      (∀ z, entityAt ('&' :: (mid ++ ';' :: z)) = true) := by
  unfold entityAt at h
  simp only [Bool.or_eq_true] at h
  rcases h with ((((((h | h) | h) | h) | h) | h) | h)
  · obtain ⟨t, ht⟩ := startsWithChars_exists h
    rw [show "&lt;".toList = ['&', 'l', 't', ';'] by decide] at ht
    injection ht with h1 h2
    refine ⟨['l', 't'], t, by rw [h2]; rfl, by decide, ?_⟩
    intro z
    have h1 : startsWithChars ['&', 'l', 't', ';']
        ('&' :: 'l' :: 't' :: ';' :: z) = true :=
      startsWithChars_append ['&', 'l', 't', ';'] z
    simp [entityAt, h1]
  · obtain ⟨t, ht⟩ := startsWithChars_exists h
    rw [show "&gt;".toList = ['&', 'g', 't', ';'] by decide] at ht
    injection ht with h1 h2
    refine ⟨['g', 't'], t, by rw [h2]; rfl, by decide, ?_⟩
    intro z
    have h1 : startsWithChars ['&', 'g', 't', ';']
        ('&' :: 'g' :: 't' :: ';' :: z) = true :=
      startsWithChars_append ['&', 'g', 't', ';'] z
    simp [entityAt, h1]
  · obtain ⟨t, ht⟩ := startsWithChars_exists h
    rw [show "&amp;".toList = ['&', 'a', 'm', 'p', ';'] by decide] at ht
    injection ht with h1 h2
    refine ⟨['a', 'm', 'p'], t, by rw [h2]; rfl, by decide, ?_⟩
    intro z
    have h1 : startsWithChars ['&', 'a', 'm', 'p', ';']
        ('&' :: 'a' :: 'm' :: 'p' :: ';' :: z) = true :=
      startsWithChars_append ['&', 'a', 'm', 'p', ';'] z
    simp [entityAt, h1]
  · obtain ⟨t, ht⟩ := startsWithChars_exists h
    rw [show "&quot;".toList = ['&', 'q', 'u', 'o', 't', ';'] by decide] at ht
    injection ht with h1 h2
    refine ⟨['q', 'u', 'o', 't'], t, by rw [h2]; rfl, by decide, ?_⟩
    intro z
    have h1 : startsWithChars ['&', 'q', 'u', 'o', 't', ';']
        ('&' :: 'q' :: 'u' :: 'o' :: 't' :: ';' :: z) = true :=
      startsWithChars_append ['&', 'q', 'u', 'o', 't', ';'] z
    simp [entityAt, h1]
  · obtain ⟨t, ht⟩ := startsWithChars_exists h
    rw [show "&apos;".toList = ['&', 'a', 'p', 'o', 's', ';'] by decide] at ht
    injection ht with h1 h2
    refine ⟨['a', 'p', 'o', 's'], t, by rw [h2]; rfl, by decide, ?_⟩
    intro z
    have h1 : startsWithChars ['&', 'a', 'p', 'o', 's', ';']
        ('&' :: 'a' :: 'p' :: 'o' :: 's' :: ';' :: z) = true :=
      startsWithChars_append ['&', 'a', 'p', 'o', 's', ';'] z
    simp [entityAt, h1]
  · unfold numericEntityAt at h
    split at h
    · rename_i a b c r10 heq
      simp only [Bool.and_eq_true, decide_eq_true_eq] at h
      obtain ⟨⟨⟨ha, hb⟩, hcd⟩, hds⟩ := h
      rw [List.take_succ_cons] at heq
      injection heq with h1 h2
      subst ha
      subst hb
      obtain ⟨ds, w0, hw, hdig⟩ := digitsThenSemi_decomp hds
      have hr9 : rest.take 9 = '#' :: c :: (ds ++ ';' :: w0) := by
        rw [h2, hw]
      have hlen : ds.length ≤ 6 := by
        have h9 : (rest.take 9).length ≤ 9 := List.length_take_le 9 rest
        rw [hr9] at h9
        simp at h9
        omega
      obtain ⟨t, hrest⟩ : ∃ t, rest = '#' :: c :: (ds ++ ';' :: (w0 ++ t)) := by
        refine ⟨rest.drop 9, ?_⟩
        conv_lhs => rw [← List.take_append_drop 9 rest]
        rw [hr9]
        simp
      refine ⟨'#' :: c :: ds, w0 ++ t, by rw [hrest]; simp, ?_, ?_⟩
      · intro x hx
        rcases List.mem_cons.mp hx with rfl | hx
        · decide
        rcases List.mem_cons.mp hx with rfl | hx
        · intro hh
          rw [hh] at hcd
          simp [Char.isDigit] at hcd
        · intro hh
          have := hdig x hx
          rw [hh] at this
          simp [Char.isDigit] at this
      · intro z
        have hnum : numericEntityAt
            ('&' :: '#' :: c :: (ds ++ ';' :: z)) = true := by
          unfold numericEntityAt
          rw [List.take_succ_cons, List.take_succ_cons, List.take_succ_cons,
            take_append_semi ds z 7 (by omega)]
          simp [hcd, digitsThenSemi_append ds _ hdig]
        simp [entityAt, hnum]
    · simp at h
  · unfold hexEntityAt at h
    split at h
    · rename_i a b x c r10 heq
      simp only [Bool.and_eq_true, decide_eq_true_eq] at h
      obtain ⟨⟨⟨⟨ha, hb⟩, hx⟩, hcd⟩, hds⟩ := h
      rw [List.take_succ_cons] at heq
      injection heq with h1 h2
      subst ha
      subst hb
      subst hx
      obtain ⟨ds, w0, hw, hdig⟩ := hexThenSemi_decomp hds
      have hr9 : rest.take 9 = '#' :: 'x' :: c :: (ds ++ ';' :: w0) := by
        rw [h2, hw]
      have hlen : ds.length ≤ 5 := by
        have h9 : (rest.take 9).length ≤ 9 := List.length_take_le 9 rest
        rw [hr9] at h9
        simp at h9
        omega
      obtain ⟨t, hrest⟩ :
          ∃ t, rest = '#' :: 'x' :: c :: (ds ++ ';' :: (w0 ++ t)) := by
        refine ⟨rest.drop 9, ?_⟩
        conv_lhs => rw [← List.take_append_drop 9 rest]
        rw [hr9]
        simp
      refine ⟨'#' :: 'x' :: c :: ds, w0 ++ t, by rw [hrest]; simp, ?_, ?_⟩
      · intro y hy
        rcases List.mem_cons.mp hy with rfl | hy
        · decide
        rcases List.mem_cons.mp hy with rfl | hy
        · decide
        rcases List.mem_cons.mp hy with rfl | hy
        · intro hh
          rw [hh] at hcd
          simp [pyIsHexDigit, Char.isDigit] at hcd
        · intro hh
          have := hdig y hy
          rw [hh] at this
          simp [pyIsHexDigit, Char.isDigit] at this
      · intro z
        have hhex : hexEntityAt
            ('&' :: '#' :: 'x' :: c :: (ds ++ ';' :: z)) = true := by
          unfold hexEntityAt
          rw [List.take_succ_cons, List.take_succ_cons, List.take_succ_cons,
            List.take_succ_cons, take_append_semi ds z 6 (by omega)]
          simp [hcd, hexThenSemi_append ds _ hdig]
        simp [entityAt, hhex]
    · simp at h

/-! Arm equations of the three scanners. -/

theorem scanTop_cons_pos {c : Char} {rest : List Char}
    (h : startsWithChars "<GENESET".toList (c :: rest) = true) :
    scanTop (c :: rest) =
      "<GENESET".toList ++ scanAttr false (rest.drop 7) := by
  unfold scanTop
  rw [if_pos h]

theorem scanTop_cons_neg {c : Char} {rest : List Char}
    (h : ¬ startsWithChars "<GENESET".toList (c :: rest) = true) :
    scanTop (c :: rest) = c :: scanTop rest := by
  conv_lhs => unfold scanTop
  rw [if_neg h]

theorem scanAttr_cons_close {prev : Bool} {c : Char} {rest : List Char}
    (h : startsWithChars "/>".toList (c :: rest) = true) :
    scanAttr prev (c :: rest) = '/' :: '>' :: scanTop rest.tail := by
  unfold scanAttr
  rw [if_pos h]

theorem scanAttr_cons_gt {prev : Bool} {rest : List Char}
    (h : ¬ startsWithChars "/>".toList ('>' :: rest) = true) :
    scanAttr prev ('>' :: rest) = '>' :: scanTop rest := by
  unfold scanAttr
  rw [if_neg h, if_pos rfl]

theorem scanAttr_cons_attr {prev : Bool} {c : Char} {rest : List Char}
    (h1 : ¬ startsWithChars "/>".toList (c :: rest) = true)
    (h2 : ¬ c = '>')
    (h3 : (c = '=' && rest.head? = some '"') = true) :
    scanAttr prev (c :: rest) =
      if prev then '=' :: '"' :: scanValue rest.tail
      else '=' :: '"' :: scanAttr false rest.tail := by
  conv_lhs => unfold scanAttr
  rw [if_neg h1, if_neg h2, if_pos h3]

theorem scanAttr_cons_plain {prev : Bool} {c : Char} {rest : List Char}
    (h1 : ¬ startsWithChars "/>".toList (c :: rest) = true)
    (h2 : ¬ c = '>')
    (h3 : ¬ (c = '=' && rest.head? = some '"') = true) :
    scanAttr prev (c :: rest) =
      c :: scanAttr (c.isAlphanum || c = '_') rest := by
  conv_lhs => unfold scanAttr
  rw [if_neg h1, if_neg h2, if_neg h3]

theorem scanValue_quote_end {rest : List Char}
    (h : isEndQuote rest = true) :
    scanValue ('"' :: rest) = '"' :: scanAttr false rest := by
  unfold scanValue
  rw [if_pos rfl, if_pos h]

theorem scanValue_quote_mid {rest : List Char}
    (h : ¬ isEndQuote rest = true) :
    scanValue ('"' :: rest) = "&quot;".toList ++ scanValue rest := by
  conv_lhs => unfold scanValue
  rw [if_pos rfl, if_neg h]

theorem scanValue_amp_entity {rest : List Char}
    (h : entityAt ('&' :: rest) = true) :
    scanValue ('&' :: rest) =
      (copyEntity ('&' :: rest)).1 ++
        scanValue ((copyEntity ('&' :: rest)).2) := by
  conv_lhs => unfold scanValue
  rw [if_neg (by decide), if_pos rfl, if_pos h]

theorem scanValue_amp_bare {rest : List Char}
    (h : ¬ entityAt ('&' :: rest) = true) :
    scanValue ('&' :: rest) = "&amp;".toList ++ scanValue rest := by
  conv_lhs => unfold scanValue
  rw [if_neg (by decide), if_pos rfl, if_neg h]

theorem scanValue_lt (rest : List Char) :
    scanValue ('<' :: rest) = "&lt;".toList ++ scanValue rest := by
  conv_lhs => unfold scanValue
  rw [if_neg (by decide), if_neg (by decide), if_pos rfl]

theorem scanValue_gt (rest : List Char) :
    scanValue ('>' :: rest) = "&gt;".toList ++ scanValue rest := by
  conv_lhs => unfold scanValue
  rw [if_neg (by decide), if_neg (by decide), if_neg (by decide),
    if_pos rfl]

theorem scanValue_plain {c : Char} (rest : List Char)
    (h1 : ¬ c = '"') (h2 : ¬ c = '&') (h3 : ¬ c = '<') (h4 : ¬ c = '>') :
    scanValue (c :: rest) = c :: scanValue rest := by
  conv_lhs => unfold scanValue
  rw [if_neg h1, if_neg h2, if_neg h3, if_neg h4]

/-! Head preservation: a scanner's output starts with the character its
input starts with. -/

theorem scanTop_cons_head (c : Char) (rest : List Char) :
    ∃ u, scanTop (c :: rest) = c :: u := by
  by_cases h : startsWithChars "<GENESET".toList (c :: rest) = true
  · obtain ⟨t, ht⟩ := startsWithChars_exists h
    rw [show "<GENESET".toList = '<' :: "GENESET".toList by decide] at ht
    injection ht with h1 h2
    rw [scanTop_cons_pos h, show "<GENESET".toList =
      '<' :: "GENESET".toList by decide, ← h1]
    exact ⟨_, rfl⟩
  · rw [scanTop_cons_neg h]
    exact ⟨_, rfl⟩

theorem scanAttr_cons_head (prev : Bool) (c : Char) (rest : List Char) :
    ∃ u, scanAttr prev (c :: rest) = c :: u := by
  by_cases h1 : startsWithChars "/>".toList (c :: rest) = true
  · obtain ⟨t, ht⟩ := startsWithChars_exists h1
    rw [show "/>".toList = '/' :: ['>'] by decide] at ht
    injection ht with ha hb
    rw [scanAttr_cons_close h1, ← ha]
    exact ⟨_, rfl⟩
  · by_cases h2 : c = '>'
    · subst h2
      rw [scanAttr_cons_gt h1]
      exact ⟨_, rfl⟩
    · by_cases h3 : (c = '=' && rest.head? = some '"') = true
      · have hc : c = '=' := by
          rw [Bool.and_eq_true] at h3
          simpa using h3.1
        rw [scanAttr_cons_attr h1 h2 h3, hc]
        cases prev <;> simp
      · rw [scanAttr_cons_plain h1 h2 h3]
        exact ⟨_, rfl⟩

/-- If the pattern avoids the opening angle bracket, the top-level
scanner cannot create it: a pattern prefix of the output was already a
prefix of the input. -/
theorem startsWithChars_scanTop :
    ∀ (p : List Char), (∀ c ∈ p, c ≠ '<') →
    ∀ l, startsWithChars p (scanTop l) = true →
      startsWithChars p l = true := by
  intro p
  induction p with
  | nil => intro _ l _; rfl
  | cons c ps ih =>
    intro hp l h
    cases l with
    | nil => simp [scanTop, startsWithChars] at h
    | cons d rest =>
      by_cases htag : startsWithChars "<GENESET".toList (d :: rest) = true
      · rw [scanTop_cons_pos htag] at h
        rw [show "<GENESET".toList = '<' :: "GENESET".toList by decide]
          at h
        simp only [List.cons_append, startsWithChars, Bool.and_eq_true,
          decide_eq_true_eq] at h
        exact absurd h.1 (hp c (by simp))
      · rw [scanTop_cons_neg htag] at h
        simp only [startsWithChars, Bool.and_eq_true,
          decide_eq_true_eq] at h ⊢
        exact ⟨h.1, ih (fun x hx => hp x (by simp [hx])) rest h.2⟩

/-- The closing-quote lookahead still fires on the rescanned suffix. -/
theorem isEndQuote_scanAttr {l : List Char} (h : isEndQuote l = true) :
    isEndQuote (scanAttr false l) = true := by
  cases l with
  | nil =>
    simp only [scanAttr]
    exact h
  | cons r0 rtail =>
    simp only [isEndQuote, Bool.or_eq_true, Bool.and_eq_true,
      decide_eq_true_eq] at h
    rcases h with (⟨h0, h1⟩ | hsw) | h0
    · subst h0
      cases rtail with
      | nil => simp at h1
      | cons r1 rt =>
        simp only [List.head?_cons] at h1
        obtain ⟨u, hu⟩ := scanAttr_cons_head false r1 rt
        have harm : scanAttr false (' ' :: r1 :: rt) =
            ' ' :: scanAttr false (r1 :: rt) := by
          rw [@scanAttr_cons_plain false ' ' (r1 :: rt)
            (by simp [startsWithChars]) (by decide) (by simp)]
          rfl
        rw [harm, hu]
        simp only [isEndQuote, Bool.or_eq_true, Bool.and_eq_true,
          decide_eq_true_eq, List.head?_cons]
        left; left
        exact ⟨trivial, by simpa using h1⟩
    · obtain ⟨t, ht⟩ := startsWithChars_exists hsw
      rw [show "/>".toList = '/' :: ['>'] by decide] at ht
      rw [show ('/' :: ['>']) ++ t = '/' :: '>' :: t by rfl] at ht
      injection ht with ha hb
      subst ha
      rw [hb] at hsw ⊢
      rw [scanAttr_cons_close hsw]
      simp [isEndQuote, startsWithChars]
    · subst h0
      by_cases hgt : startsWithChars "/>".toList ('>' :: rtail) = true
      · obtain ⟨t, ht⟩ := startsWithChars_exists hgt
        rw [show "/>".toList = '/' :: ['>'] by decide] at ht
        injection ht with ha hb
        simp at ha
      · rw [scanAttr_cons_gt hgt]
        simp [isEndQuote]

/-! Rescanning a copied or freshly emitted entity copies it verbatim. -/

theorem scanValue_copy {mid : List Char} (hm : ∀ c ∈ mid, c ≠ ';')
    (he : ∀ z, entityAt ('&' :: (mid ++ ';' :: z)) = true) (z : List Char) :
    scanValue ('&' :: (mid ++ ';' :: z)) =
      ('&' :: (mid ++ [';'])) ++ scanValue z := by
  have hpre : ∀ c ∈ ('&' :: mid), c ≠ ';' := by
    intro c hc
    rcases List.mem_cons.mp hc with rfl | hc
    · decide
    · exact hm c hc
  have hcopy : copyEntity ('&' :: (mid ++ ';' :: z)) =
      ('&' :: (mid ++ [';']), z) := by
    have h := copyEntity_append_semi ('&' :: mid) z hpre
    simpa using h
  rw [scanValue_amp_entity (he z), hcopy]

theorem scanValue_quot_rescan (z : List Char) :
    scanValue ('&' :: 'q' :: 'u' :: 'o' :: 't' :: ';' :: z) =
      '&' :: 'q' :: 'u' :: 'o' :: 't' :: ';' :: scanValue z := by
  have he : ∀ w, entityAt ('&' :: (['q', 'u', 'o', 't'] ++ ';' :: w)) = true := by
    intro w
    have hsw : startsWithChars "&quot;".toList
        ('&' :: (['q', 'u', 'o', 't'] ++ ';' :: w)) = true := by
      rw [show "&quot;".toList = ['&', 'q', 'u', 'o', 't', ';'] by decide]
      exact startsWithChars_append ['&', 'q', 'u', 'o', 't', ';'] w
    unfold entityAt
    rw [hsw]
    simp
  exact scanValue_copy (by decide) he z

theorem scanValue_amp_rescan (z : List Char) :
    scanValue ('&' :: 'a' :: 'm' :: 'p' :: ';' :: z) =
      '&' :: 'a' :: 'm' :: 'p' :: ';' :: scanValue z := by
  have he : ∀ w, entityAt ('&' :: (['a', 'm', 'p'] ++ ';' :: w)) = true := by
    intro w
    have hsw : startsWithChars "&amp;".toList
        ('&' :: (['a', 'm', 'p'] ++ ';' :: w)) = true := by
      rw [show "&amp;".toList = ['&', 'a', 'm', 'p', ';'] by decide]
      exact startsWithChars_append ['&', 'a', 'm', 'p', ';'] w
    unfold entityAt
    rw [hsw]
    simp
  exact scanValue_copy (by decide) he z

theorem scanValue_lt_rescan (z : List Char) :
    scanValue ('&' :: 'l' :: 't' :: ';' :: z) =
      '&' :: 'l' :: 't' :: ';' :: scanValue z := by
  have he : ∀ w, entityAt ('&' :: (['l', 't'] ++ ';' :: w)) = true := by
    intro w
    have hsw : startsWithChars "&lt;".toList
        ('&' :: (['l', 't'] ++ ';' :: w)) = true := by
      rw [show "&lt;".toList = ['&', 'l', 't', ';'] by decide]
      exact startsWithChars_append ['&', 'l', 't', ';'] w
    unfold entityAt
    rw [hsw]
    simp
  exact scanValue_copy (by decide) he z

theorem scanValue_gt_rescan (z : List Char) :
    scanValue ('&' :: 'g' :: 't' :: ';' :: z) =
      '&' :: 'g' :: 't' :: ';' :: scanValue z := by
  have he : ∀ w, entityAt ('&' :: (['g', 't'] ++ ';' :: w)) = true := by
    intro w
    have hsw : startsWithChars "&gt;".toList
        ('&' :: (['g', 't'] ++ ';' :: w)) = true := by
      rw [show "&gt;".toList = ['&', 'g', 't', ';'] by decide]
      exact startsWithChars_append ['&', 'g', 't', ';'] w
    unfold entityAt
    rw [hsw]
    simp
  exact scanValue_copy (by decide) he z

/-! Lookahead conditions depend only on the head of the tail, which the
attribute scanner preserves. -/

theorem scanAttr_head_eq (prev : Bool) (l : List Char) :
    (scanAttr prev l).head? = l.head? := by
  cases l with
  | nil => simp [scanAttr]
  | cons c rest =>
    obtain ⟨u, hu⟩ := scanAttr_cons_head prev c rest
    rw [hu]
    rfl

theorem startsWith_pair_cons (p0 p1 c : Char) (l : List Char) :
    startsWithChars [p0, p1] (c :: l) = true ↔
      (p0 = c ∧ l.head? = some p1) := by
  cases l with
  | nil => simp [startsWithChars]
  | cons d t =>
    simp only [startsWithChars, Bool.and_eq_true, decide_eq_true_eq,
      List.head?_cons, Option.some.injEq]
    constructor
    · rintro ⟨h1, h2, -⟩
      exact ⟨h1, h2.symm⟩
    · rintro ⟨h1, h2⟩
      exact ⟨h1, h2.symm, trivial⟩

/-- One pass of the escape scanners is a fixed point of a second pass:
every emitted chunk is recognized unchanged when rescanned in the state
that emitted it. -/
theorem scan_idem : ∀ n : Nat, ∀ l : List Char, l.length ≤ n →
    scanTop (scanTop l) = scanTop l ∧
    (∀ prev, scanAttr prev (scanAttr prev l) = scanAttr prev l) ∧
    scanValue (scanValue l) = scanValue l := by
  intro n
  induction n with
  | zero =>
    intro l hl
    have hnil : l = [] := List.length_eq_zero.mp (Nat.le_zero.mp hl)
    subst hnil
    exact ⟨by simp [scanTop], fun prev => by simp [scanAttr], by simp [scanValue]⟩
  | succ n ih =>
    intro l hl
    cases l with
    | nil =>
      exact ⟨by simp [scanTop], fun prev => by simp [scanAttr],
        by simp [scanValue]⟩
    | cons c rest =>
      have hlen : rest.length ≤ n := by
        simp only [List.length_cons] at hl
        omega
      refine ⟨?_, ?_, ?_⟩
      · by_cases htag : startsWithChars "<GENESET".toList (c :: rest) = true
        · rw [scanTop_cons_pos htag]
          rw [show "<GENESET".toList =
            ['<', 'G', 'E', 'N', 'E', 'S', 'E', 'T'] by decide]
          simp only [List.cons_append, List.nil_append]
          have htag' : startsWithChars "<GENESET".toList
              ('<' :: 'G' :: 'E' :: 'N' :: 'E' :: 'S' :: 'E' :: 'T' ::
                scanAttr false (rest.drop 7)) = true := by
            rw [show "<GENESET".toList =
              ['<', 'G', 'E', 'N', 'E', 'S', 'E', 'T'] by decide]
            exact startsWithChars_append
              ['<', 'G', 'E', 'N', 'E', 'S', 'E', 'T'] _
          rw [scanTop_cons_pos htag']
          rw [show "<GENESET".toList =
            ['<', 'G', 'E', 'N', 'E', 'S', 'E', 'T'] by decide]
          simp only [List.cons_append, List.nil_append]
          rw [show List.drop 7 ('G' :: 'E' :: 'N' :: 'E' :: 'S' :: 'E' ::
            'T' :: scanAttr false (rest.drop 7)) =
              scanAttr false (rest.drop 7) from rfl]
          have hdrop : (rest.drop 7).length ≤ n := by
            rw [List.length_drop]
            omega
          rw [(ih (rest.drop 7) hdrop).2.1 false]
        · rw [scanTop_cons_neg htag]
          have htag' : ¬ startsWithChars "<GENESET".toList
              (c :: scanTop rest) = true := by
            intro hcon
            rw [show "<GENESET".toList =
              '<' :: "GENESET".toList by decide] at hcon
            simp only [startsWithChars, Bool.and_eq_true,
              decide_eq_true_eq] at hcon
            obtain ⟨hc, hrest⟩ := hcon
            have hpull := startsWithChars_scanTop "GENESET".toList
              (by decide) rest hrest
            apply htag
            rw [show "<GENESET".toList =
              '<' :: "GENESET".toList by decide]
            simp only [startsWithChars, Bool.and_eq_true,
              decide_eq_true_eq]
            exact ⟨hc, hpull⟩
          rw [scanTop_cons_neg htag', (ih rest hlen).1]
      · intro prev
        by_cases h1 : startsWithChars "/>".toList (c :: rest) = true
        · obtain ⟨t, ht⟩ := startsWithChars_exists h1
          rw [show "/>".toList = ['/', '>'] by decide] at ht
          rw [show ((['/', '>'] : List Char) ++ t) = '/' :: '>' :: t
            from rfl] at ht
          injection ht with hc ht2
          subst hc
          subst ht2
          rw [scanAttr_cons_close h1]
          simp only [List.tail_cons]
          have h1' : startsWithChars "/>".toList
              ('/' :: '>' :: scanTop t) = true := by
            rw [show "/>".toList = ['/', '>'] by decide]
            exact startsWithChars_append ['/', '>'] (scanTop t)
          rw [scanAttr_cons_close h1']
          simp only [List.tail_cons]
          have hlt : t.length ≤ n := by
            simp only [List.length_cons] at hlen
            omega
          rw [(ih t hlt).1]
        · by_cases h2 : c = '>'
          · subst h2
            rw [scanAttr_cons_gt h1]
            have h1' : ¬ startsWithChars "/>".toList
                ('>' :: scanTop rest) = true := by
              rw [show "/>".toList = ['/', '>'] by decide]
              simp [startsWithChars]
            rw [scanAttr_cons_gt h1', (ih rest hlen).1]
          · by_cases h3 : (c = '=' && rest.head? = some '"') = true
            · simp only [Bool.and_eq_true, decide_eq_true_eq] at h3
              obtain ⟨hc, hq⟩ := h3
              subst hc
              cases rest with
              | nil => simp at hq
              | cons r0 rt =>
                simp only [List.head?_cons, Option.some.injEq] at hq
                subst hq
                have hrt : rt.length ≤ n := by
                  simp only [List.length_cons] at hlen
                  omega
                have h3b : (('=' : Char) = '=' &&
                    (('"' :: rt : List Char)).head? = some '"') = true := by
                  simp
                rw [scanAttr_cons_attr h1 h2 h3b]
                simp only [List.tail_cons]
                cases prev with
                | true =>
                  rw [if_pos rfl]
                  have h1'' : ¬ startsWithChars "/>".toList
                      ('=' :: '"' :: scanValue rt) = true := by
                    rw [show "/>".toList = ['/', '>'] by decide]
                    simp [startsWithChars]
                  have h3'' : (('=' : Char) = '=' &&
                      (('"' :: scanValue rt : List Char)).head? =
                        some '"') = true := by
                    simp
                  rw [scanAttr_cons_attr h1'' h2 h3'']
                  rw [if_pos rfl]
                  simp only [List.tail_cons]
                  rw [(ih rt hrt).2.2]
                | false =>
                  rw [if_neg (by simp)]
                  have h1'' : ¬ startsWithChars "/>".toList
                      ('=' :: '"' :: scanAttr false rt) = true := by
                    rw [show "/>".toList = ['/', '>'] by decide]
                    simp [startsWithChars]
                  have h3'' : (('=' : Char) = '=' &&
                      (('"' :: scanAttr false rt : List Char)).head? =
                        some '"') = true := by
                    simp
                  rw [scanAttr_cons_attr h1'' h2 h3'']
                  rw [if_neg (by simp)]
                  simp only [List.tail_cons]
                  rw [(ih rt hrt).2.1 false]
            · rw [scanAttr_cons_plain h1 h2 h3]
              have hh := scanAttr_head_eq (c.isAlphanum || c = '_') rest
              have h1' : ¬ startsWithChars "/>".toList
                  (c :: scanAttr (c.isAlphanum || c = '_') rest) = true := by
                rw [show "/>".toList = ['/', '>'] by decide] at h1 ⊢
                rw [startsWith_pair_cons, hh]
                rw [startsWith_pair_cons] at h1
                exact h1
              have h3' : ¬ (c = '=' &&
                  (scanAttr (c.isAlphanum || c = '_') rest).head? =
                    some '"') = true := by
                rw [hh]
                exact h3
              rw [scanAttr_cons_plain h1' h2 h3']
              rw [(ih rest hlen).2.1 (c.isAlphanum || c = '_')]
      · by_cases hq : c = '"'
        · subst hq
          by_cases hend : isEndQuote rest = true
          · rw [scanValue_quote_end hend]
            rw [scanValue_quote_end (isEndQuote_scanAttr hend)]
            rw [(ih rest hlen).2.1 false]
          · rw [scanValue_quote_mid hend]
            rw [show "&quot;".toList = ['&', 'q', 'u', 'o', 't', ';']
              by decide]
            simp only [List.cons_append, List.nil_append]
            rw [scanValue_quot_rescan, (ih rest hlen).2.2]
        · by_cases ha : c = '&'
          · subst ha
            by_cases hent : entityAt ('&' :: rest) = true
            · obtain ⟨mid, w, hrest, hmid, hentz⟩ := entity_split hent
              have hw : w.length ≤ n := by
                have hle := congrArg List.length hrest
                simp only [List.length_append, List.length_cons] at hle
                omega
              subst hrest
              rw [scanValue_copy hmid hentz w]
              have hassoc : ('&' :: (mid ++ [';'])) ++ scanValue w =
                  '&' :: (mid ++ ';' :: scanValue w) := by
                simp
              rw [hassoc]
              rw [scanValue_copy hmid hentz (scanValue w)]
              rw [(ih w hw).2.2]
              exact hassoc
            · rw [scanValue_amp_bare hent]
              rw [show "&amp;".toList = ['&', 'a', 'm', 'p', ';'] by decide]
              simp only [List.cons_append, List.nil_append]
              rw [scanValue_amp_rescan, (ih rest hlen).2.2]
          · by_cases hlt : c = '<'
            · subst hlt
              rw [scanValue_lt]
              rw [show "&lt;".toList = ['&', 'l', 't', ';'] by decide]
              simp only [List.cons_append, List.nil_append]
              rw [scanValue_lt_rescan, (ih rest hlen).2.2]
            · by_cases hgt : c = '>'
              · subst hgt
                rw [scanValue_gt]
                rw [show "&gt;".toList = ['&', 'g', 't', ';'] by decide]
                simp only [List.cons_append, List.nil_append]
                rw [scanValue_gt_rescan, (ih rest hlen).2.2]
              · rw [scanValue_plain rest hq ha hlt hgt]
                rw [scanValue_plain (scanValue rest) hq ha hlt hgt]
                rw [(ih rest hlen).2.2]

/-! Every character a scanner emits is either copied from its input or
drawn from the fixed repertoire of escape and tag characters, all of
which are valid XML characters; hence the invalid-character strip is the
identity on scanner output over stripped input. -/

def escapeOutputChars : List Char :=
  ['&', 'l', 't', ';', 'g', 'a', 'm', 'p', 'q', 'u', 'o',
   '<', 'G', 'E', 'N', 'S', 'T', '/', '>', '=', '"']

theorem scan_mem : ∀ n : Nat, ∀ l : List Char, l.length ≤ n → ∀ x : Char,
    (x ∈ scanTop l → x ∈ l ∨ x ∈ escapeOutputChars) ∧
    (∀ prev, x ∈ scanAttr prev l → x ∈ l ∨ x ∈ escapeOutputChars) ∧
    (x ∈ scanValue l → x ∈ l ∨ x ∈ escapeOutputChars) := by
  intro n
  induction n with
  | zero =>
    intro l hl x
    have hnil : l = [] := List.length_eq_zero.mp (Nat.le_zero.mp hl)
    subst hnil
    exact ⟨by simp [scanTop], fun prev => by simp [scanAttr],
      by simp [scanValue]⟩
  | succ n ih =>
    intro l hl x
    cases l with
    | nil =>
      exact ⟨by simp [scanTop], fun prev => by simp [scanAttr],
        by simp [scanValue]⟩
    | cons c rest =>
      have hlen : rest.length ≤ n := by
        simp only [List.length_cons] at hl
        omega
      refine ⟨?_, ?_, ?_⟩
      · intro hx
        by_cases htag : startsWithChars "<GENESET".toList (c :: rest) = true
        · rw [scanTop_cons_pos htag] at hx
          rcases List.mem_append.mp hx with hL | hR
          · have hsub : ∀ y ∈ "<GENESET".toList, y ∈ escapeOutputChars := by
              decide
            exact Or.inr (hsub x hL)
          · have hdrop : (rest.drop 7).length ≤ n := by
              rw [List.length_drop]
              omega
            rcases (ih (rest.drop 7) hdrop x).2.1 false hR with hin | hesc
            · exact Or.inl (List.mem_cons_of_mem c
                (List.mem_of_mem_drop hin))
            · exact Or.inr hesc
        · rw [scanTop_cons_neg htag] at hx
          rcases List.mem_cons.mp hx with rfl | hx2
          · exact Or.inl (List.mem_cons_self x rest)
          · rcases (ih rest hlen x).1 hx2 with hin | hesc
            · exact Or.inl (List.mem_cons_of_mem c hin)
            · exact Or.inr hesc
      · intro prev hx
        by_cases h1 : startsWithChars "/>".toList (c :: rest) = true
        · obtain ⟨t, ht⟩ := startsWithChars_exists h1
          rw [show "/>".toList = ['/', '>'] by decide] at ht
          rw [show ((['/', '>'] : List Char) ++ t) = '/' :: '>' :: t
            from rfl] at ht
          injection ht with hc ht2
          subst hc
          subst ht2
          rw [scanAttr_cons_close h1] at hx
          simp only [List.tail_cons] at hx
          rcases List.mem_cons.mp hx with rfl | hx2
          · exact Or.inr (by decide)
          rcases List.mem_cons.mp hx2 with rfl | hx3
          · exact Or.inr (by decide)
          have hlt : t.length ≤ n := by
            simp only [List.length_cons] at hlen
            omega
          rcases (ih t hlt x).1 hx3 with hin | hesc
          · exact Or.inl (by simp [List.mem_cons, hin])
          · exact Or.inr hesc
        · by_cases h2 : c = '>'
          · subst h2
            rw [scanAttr_cons_gt h1] at hx
            rcases List.mem_cons.mp hx with rfl | hx2
            · exact Or.inr (by decide)
            rcases (ih rest hlen x).1 hx2 with hin | hesc
            · exact Or.inl (List.mem_cons_of_mem _ hin)
            · exact Or.inr hesc
          · by_cases h3 : (c = '=' && rest.head? = some '"') = true
            · simp only [Bool.and_eq_true, decide_eq_true_eq] at h3
              obtain ⟨hc, hq⟩ := h3
              subst hc
              cases rest with
              | nil => simp at hq
              | cons r0 rt =>
                simp only [List.head?_cons, Option.some.injEq] at hq
                subst hq
                have hrt : rt.length ≤ n := by
                  simp only [List.length_cons] at hlen
                  omega
                have h3b : (('=' : Char) = '=' &&
                    (('"' :: rt : List Char)).head? = some '"') = true := by
                  simp
                rw [scanAttr_cons_attr h1 h2 h3b] at hx
                simp only [List.tail_cons] at hx
                cases prev with
                | true =>
                  rw [if_pos rfl] at hx
                  rcases List.mem_cons.mp hx with rfl | hx2
                  · exact Or.inr (by decide)
                  rcases List.mem_cons.mp hx2 with rfl | hx3
                  · exact Or.inr (by decide)
                  rcases (ih rt hrt x).2.2 hx3 with hin | hesc
                  · exact Or.inl (by simp [List.mem_cons, hin])
                  · exact Or.inr hesc
                | false =>
                  rw [if_neg (by simp)] at hx
                  rcases List.mem_cons.mp hx with rfl | hx2
                  · exact Or.inr (by decide)
                  rcases List.mem_cons.mp hx2 with rfl | hx3
                  · exact Or.inr (by decide)
                  rcases (ih rt hrt x).2.1 false hx3 with hin | hesc
                  · exact Or.inl (by simp [List.mem_cons, hin])
                  · exact Or.inr hesc
            · rw [scanAttr_cons_plain h1 h2 h3] at hx
              rcases List.mem_cons.mp hx with rfl | hx2
              · exact Or.inl (List.mem_cons_self x rest)
              rcases (ih rest hlen x).2.1 (c.isAlphanum || c = '_') hx2 with
                hin | hesc
              · exact Or.inl (List.mem_cons_of_mem c hin)
              · exact Or.inr hesc
      · intro hx
        by_cases hq : c = '"'
        · subst hq
          by_cases hend : isEndQuote rest = true
          · rw [scanValue_quote_end hend] at hx
            rcases List.mem_cons.mp hx with rfl | hx2
            · exact Or.inr (by decide)
            rcases (ih rest hlen x).2.1 false hx2 with hin | hesc
            · exact Or.inl (List.mem_cons_of_mem _ hin)
            · exact Or.inr hesc
          · rw [scanValue_quote_mid hend] at hx
            rcases List.mem_append.mp hx with hL | hR
            · have hsub : ∀ y ∈ "&quot;".toList, y ∈ escapeOutputChars := by
                decide
              exact Or.inr (hsub x hL)
            rcases (ih rest hlen x).2.2 hR with hin | hesc
            · exact Or.inl (List.mem_cons_of_mem _ hin)
            · exact Or.inr hesc
        · by_cases ha : c = '&'
          · subst ha
            by_cases hent : entityAt ('&' :: rest) = true
            · obtain ⟨mid, w, hrest, hmid, hentz⟩ := entity_split hent
              have hw : w.length ≤ n := by
                have hle := congrArg List.length hrest
                simp only [List.length_append, List.length_cons] at hle
                omega
              subst hrest
              rw [scanValue_copy hmid hentz w] at hx
              rcases List.mem_append.mp hx with hL | hR
              · rcases List.mem_cons.mp hL with rfl | hL2
                · exact Or.inl (by simp)
                rcases List.mem_append.mp hL2 with hm | hs
                · exact Or.inl (by simp [List.mem_cons, List.mem_append, hm])
                · exact Or.inl (by
                    simp only [List.mem_singleton] at hs
                    subst hs
                    simp [List.mem_cons, List.mem_append])
              · rcases (ih w hw x).2.2 hR with hin | hesc
                · exact Or.inl (by simp [List.mem_cons, List.mem_append, hin])
                · exact Or.inr hesc
            · rw [scanValue_amp_bare hent] at hx
              rcases List.mem_append.mp hx with hL | hR
              · have hsub : ∀ y ∈ "&amp;".toList, y ∈ escapeOutputChars := by
                  decide
                exact Or.inr (hsub x hL)
              rcases (ih rest hlen x).2.2 hR with hin | hesc
              · exact Or.inl (List.mem_cons_of_mem _ hin)
              · exact Or.inr hesc
          · by_cases hlt : c = '<'
            · subst hlt
              rw [scanValue_lt] at hx
              rcases List.mem_append.mp hx with hL | hR
              · have hsub : ∀ y ∈ "&lt;".toList, y ∈ escapeOutputChars := by
                  decide
                exact Or.inr (hsub x hL)
              rcases (ih rest hlen x).2.2 hR with hin | hesc
              · exact Or.inl (List.mem_cons_of_mem _ hin)
              · exact Or.inr hesc
            · by_cases hgt : c = '>'
              · subst hgt
                rw [scanValue_gt] at hx
                rcases List.mem_append.mp hx with hL | hR
                · have hsub : ∀ y ∈ "&gt;".toList,
                      y ∈ escapeOutputChars := by
                    decide
                  exact Or.inr (hsub x hL)
                rcases (ih rest hlen x).2.2 hR with hin | hesc
                · exact Or.inl (List.mem_cons_of_mem _ hin)
                · exact Or.inr hesc
              · rw [scanValue_plain rest hq ha hlt hgt] at hx
                rcases List.mem_cons.mp hx with rfl | hx2
                · exact Or.inl (List.mem_cons_self x rest)
                rcases (ih rest hlen x).2.2 hx2 with hin | hesc
                · exact Or.inl (List.mem_cons_of_mem c hin)
                · exact Or.inr hesc

theorem escapeOutputChars_valid :
    ∀ x ∈ escapeOutputChars, valid_xml_char x = true := by
  decide

theorem sanitize_xml_content_of_valid {l : List Char}
    (h : ∀ c ∈ l, valid_xml_char c = true) :
    sanitize_xml_content l = l :=
  List.filter_eq_self.mpr h

theorem sanitizeText_idem (l : List Char) :
    sanitizeText (sanitizeText l) = sanitizeText l := by
  unfold sanitizeText
  have hv : ∀ c ∈ scanTop (sanitize_xml_content l),
      valid_xml_char c = true := by
    intro x hx
    rcases (scan_mem (sanitize_xml_content l).length
      (sanitize_xml_content l) le_rfl x).1 hx with hin | hesc
    · exact (List.mem_filter.mp hin).2
    · exact escapeOutputChars_valid x hesc
  rw [sanitize_xml_content_of_valid hv]
  exact (scan_idem (sanitize_xml_content l).length _ le_rfl).1

/-- C6: the sanitizer is idempotent. The create_sanitized_xml_copy
transformation (stripping invalid XML characters, then escaping within
GENESET attribute values) applied to its own output yields byte-identical
text, on character sequences and on whole strings alike; in particular a
document it has already sanitized passes through unchanged. -/
theorem sanitizer_idempotent :
    (∀ l : List Char, sanitizeText (sanitizeText l) = sanitizeText l) ∧
    (∀ s : String, sanitizeString (sanitizeString s) = sanitizeString s) := by
  refine ⟨sanitizeText_idem, ?_⟩
  intro s
  unfold sanitizeString
  rw [show ((sanitizeText s.toList).asString).toList =
    sanitizeText s.toList from rfl]
  rw [sanitizeText_idem s.toList]

/-- C9: sanitizing the fragment <GENESET STANDARD_NAME="X" DESC="a & b <c>"/>
produces <GENESET STANDARD_NAME="X" DESC="a &amp; b &lt;c&gt;"/>, and inside
a GENESET attribute value a bare ampersand, less-than or greater-than is
escaped while a recognized named or numeric entity reference is copied
through untouched up to its terminating semicolon. -/
theorem sanitize_example_and_escapes :
    sanitizeString "<GENESET STANDARD_NAME=\"X\" DESC=\"a & b <c>\"/>" =
      "<GENESET STANDARD_NAME=\"X\" DESC=\"a &amp; b &lt;c&gt;\"/>" ∧
    (∀ rest, scanValue ('<' :: rest) = "&lt;".toList ++ scanValue rest) ∧
    (∀ rest, scanValue ('>' :: rest) = "&gt;".toList ++ scanValue rest) ∧
    (∀ rest, entityAt ('&' :: rest) = false →
      scanValue ('&' :: rest) = "&amp;".toList ++ scanValue rest) ∧
    (∀ rest, entityAt ('&' :: rest) = true →
      ∃ mid w, rest = mid ++ ';' :: w ∧
        scanValue ('&' :: rest) = '&' :: (mid ++ ';' :: scanValue w)) := by
  refine ⟨?_, scanValue_lt, scanValue_gt, ?_, ?_⟩
  · simp [sanitizeString, sanitizeText, sanitize_xml_content, scanTop,
      scanAttr, scanValue, isEndQuote, entityAt, copyEntity,
      startsWithChars, numericEntityAt, hexEntityAt, valid_xml_char,
      digitsThenSemi, hexThenSemi, pyIsHexDigit, List.asString]
  · intro rest h
    exact scanValue_amp_bare (by simp [h])
  · intro rest h
    obtain ⟨mid, w, hrest, hmid, hentz⟩ := entity_split h
    refine ⟨mid, w, hrest, ?_⟩
    subst hrest
    rw [scanValue_copy hmid hentz w]
    simp

theorem sanitize_example_and_escapes_witness :
    entityAt ('&' :: ' ' :: []) = false ∧
    scanValue ('&' :: ' ' :: []) = "&amp;".toList ++ scanValue (' ' :: []) ∧
    entityAt ('&' :: 'l' :: 't' :: ';' :: []) = true ∧
    (∃ mid w, ('l' :: 't' :: ';' :: [] : List Char) = mid ++ ';' :: w ∧
      scanValue ('&' :: 'l' :: 't' :: ';' :: []) =
        '&' :: (mid ++ ';' :: scanValue w)) :=
  ⟨by decide,
   sanitize_example_and_escapes.2.2.2.1 (' ' :: []) (by decide),
   by decide,
   sanitize_example_and_escapes.2.2.2.2 ('l' :: 't' :: ';' :: []) (by decide)⟩


/-! # C3: the round-trip of the shared field core

The XML member-mapping wire format and the two builders, compared as the
specification directs: each side normalized, an omitted key read as null,
over the field vocabulary both sources supply. -/

theorem asString_toList (s : String) : s.toList.asString = s := rfl

theorem asString_data (s : String) : s.data.asString = s := rfl

theorem splitc_no_sep {sep : Char} : ∀ {a : List Char}, sep ∉ a →
    splitc sep a = [a] := by
  intro a
  induction a with
  | nil => intro _; rfl
  | cons c r ih =>
    intro h
    have hc : ¬ c = sep := by
      intro hh
      exact h (by rw [hh]; exact List.mem_cons_self _ _)
    have hr := ih (fun hm => h (List.mem_cons_of_mem c hm))
    simp [splitc, hc, hr]

theorem splitc_append_sep (sep : Char) : ∀ (a : List Char), sep ∉ a →
    ∀ (b : List Char), splitc sep (a ++ sep :: b) = a :: splitc sep b := by
  intro a
  induction a with
  | nil => intro _ b; simp [splitc]
  | cons c r ih =>
    intro h b
    have hc : ¬ c = sep := by
      intro hh
      exact h (by rw [hh]; exact List.mem_cons_self _ _)
    have hr := ih (fun hm => h (List.mem_cons_of_mem c hm)) b
    simp only [List.cons_append, splitc, List.append_eq]
    rw [if_neg hc, hr]

theorem not_mem_of_pyContains {s : String} {c : Char}
    (h : pyContains s c = false) : c ∉ s.toList := by
  intro hm
  rw [pyContains] at h
  rw [List.elem_eq_true_of_mem hm] at h
  exact Bool.true_eq_false.mp h

theorem no_comma_of_pyIsDigit {d : String} (h : pyIsDigit d = true) :
    ',' ∉ d.toList := by
  intro hm
  rw [pyIsDigit, Bool.and_eq_true] at h
  have hall := List.all_eq_true.mp h.2 ',' hm
  simp at hall

theorem no_pipe_of_pyIsDigit {d : String} (h : pyIsDigit d = true) :
    '|' ∉ d.toList := by
  intro hm
  rw [pyIsDigit, Bool.and_eq_true] at h
  have hall := List.all_eq_true.mp h.2 '|' hm
  simp at hall

theorem toList_comma_fields (sid g d : String) :
    (sid ++ "," ++ g ++ "," ++ d).toList =
      sid.toList ++ ',' :: (g.toList ++ ',' :: d.toList) := by
  show (sid ++ "," ++ g ++ "," ++ d).data =
      sid.data ++ ',' :: (g.data ++ ',' :: d.data)
  simp [String.data_append, List.append_assoc]

theorem toList_pipe_join (a b : String) :
    (a ++ "|" ++ b).toList = a.toList ++ '|' :: b.toList := by
  show (a ++ "|" ++ b).data = a.data ++ '|' :: b.data
  simp [String.data_append, List.append_assoc]

theorem optStrTruthy_none : optStrTruthy none = none := rfl

theorem optStrTruthy_of_ne {s : String} (h : s ≠ "") :
    optStrTruthy (some s) = some s := by
  unfold optStrTruthy
  split
  · next heq => simp at heq; exact absurd heq h
  · rfl

theorem memberOfEntry_encode : ∀ {m : Member}, memberWF m = true →
    memberOfEntry (encodeMember m) = some m := by
  intro m h
  obtain ⟨sid, gs, nc⟩ := m
  cases gs with
  | none => simp [memberWF] at h
  | some g =>
    simp only [memberWF, Bool.and_eq_true, Bool.not_eq_true'] at h
    obtain ⟨⟨⟨hsid1, hsid2⟩, ⟨hg1, hg2⟩, hg3⟩, hnc⟩ := h
    cases nc with
    | some d =>
      have hsplit : pysplit (encodeMember ⟨sid, some g, some d⟩) ',' =
          [sid, g, d] := by
        unfold pysplit
        rw [show encodeMember ⟨sid, some g, some d⟩ =
          sid ++ "," ++ g ++ "," ++ d from rfl]
        rw [toList_comma_fields]
        rw [splitc_append_sep ',' sid.toList
          (not_mem_of_pyContains hsid1) (g.toList ++ ',' :: d.toList)]
        rw [splitc_append_sep ',' g.toList
          (not_mem_of_pyContains hg2) d.toList]
        rw [splitc_no_sep (no_comma_of_pyIsDigit hnc)]
        simp [asString_toList, asString_data]
      unfold memberOfEntry
      rw [hsplit]
      simp only [if_pos hnc]
    | none =>
      have hsplit : pysplit (encodeMember ⟨sid, some g, none⟩) ',' =
          [sid, g, ""] := by
        unfold pysplit
        rw [show encodeMember ⟨sid, some g, none⟩ =
          sid ++ "," ++ g ++ "," ++ "" from rfl]
        rw [toList_comma_fields]
        rw [splitc_append_sep ',' sid.toList
          (not_mem_of_pyContains hsid1)
          (g.toList ++ ',' :: ("" : String).toList)]
        rw [splitc_append_sep ',' g.toList
          (not_mem_of_pyContains hg2) ("" : String).toList]
        rw [show ("" : String).toList = [] from rfl]
        rw [splitc_no_sep (by simp)]
        simp [asString_toList, asString_data]
        rfl
      unfold memberOfEntry
      rw [hsplit]
      simp only [if_neg (by decide : ¬ pyIsDigit "" = true)]

theorem encodeMember_ne (m : Member) : ¬ encodeMember m = "" := by
  obtain ⟨sid, gs, nc⟩ := m
  intro hcon
  have h1 := congrArg String.toList hcon
  rw [show encodeMember ⟨sid, gs, nc⟩ =
    sid ++ "," ++ (gs.getD "") ++ "," ++ (nc.getD "") from rfl] at h1
  rw [toList_comma_fields, show ("" : String).toList = [] from rfl] at h1
  simp at h1

theorem encodeMember_no_pipe : ∀ {m : Member}, memberWF m = true →
    '|' ∉ (encodeMember m).toList := by
  intro m h
  obtain ⟨sid, gs, nc⟩ := m
  cases gs with
  | none => simp [memberWF] at h
  | some g =>
    simp only [memberWF, Bool.and_eq_true, Bool.not_eq_true'] at h
    obtain ⟨⟨⟨hsid1, hsid2⟩, ⟨hg1, hg2⟩, hg3⟩, hnc⟩ := h
    intro hm
    rw [show encodeMember ⟨sid, some g, nc⟩ =
      sid ++ "," ++ g ++ "," ++ (nc.getD "") from rfl] at hm
    rw [toList_comma_fields] at hm
    simp only [List.mem_append, List.mem_cons] at hm
    rcases hm with hs | hc | hgm | hc | hd
    · exact not_mem_of_pyContains hsid2 hs
    · simp at hc
    · exact not_mem_of_pyContains hg3 hgm
    · simp at hc
    · cases nc with
      | none => simp at hd
      | some d => exact no_pipe_of_pyIsDigit hnc hd

theorem encodeMembers_ne (m : Member) (ms : List Member) :
    ¬ encodeMembers (m :: ms) = "" := by
  cases ms with
  | nil => exact encodeMember_ne m
  | cons m2 r =>
    intro hcon
    have h1 := congrArg String.toList hcon
    rw [show encodeMembers (m :: m2 :: r) =
      encodeMember m ++ "|" ++ encodeMembers (m2 :: r) from rfl] at h1
    rw [toList_pipe_join, show ("" : String).toList = [] from rfl] at h1
    simp at h1

/-- The member-mapping encoding of a well-formed member list parses back
to the same list. -/
theorem parse_members_mapping_encode : ∀ (ms : List Member),
    (∀ m ∈ ms, memberWF m = true) →
    parse_members_mapping (encodeMembers ms) = ms := by
  intro ms
  induction ms with
  | nil => intro _; rfl
  | cons m rest ih =>
    intro h
    have hw := h m (by simp)
    cases rest with
    | nil =>
      rw [show encodeMembers [m] = encodeMember m from rfl]
      rw [parse_members_mapping, if_neg (encodeMember_ne m)]
      have hps : pysplit (encodeMember m) '|' = [encodeMember m] := by
        unfold pysplit
        rw [splitc_no_sep (encodeMember_no_pipe hw)]
        simp [asString_toList, asString_data]
      rw [hps]
      simp [List.filterMap, memberOfEntry_encode hw]
    | cons m2 rest2 =>
      have ihx := ih (fun x hx => h x (by simp [hx]))
      rw [parse_members_mapping,
        if_neg (encodeMembers_ne m2 rest2)] at ihx
      rw [show encodeMembers (m :: m2 :: rest2) =
        encodeMember m ++ "|" ++ encodeMembers (m2 :: rest2) from rfl]
      rw [parse_members_mapping, if_neg (by
        intro hcon
        have h1 := congrArg String.toList hcon
        rw [toList_pipe_join, show ("" : String).toList = [] from rfl] at h1
        simp at h1)]
      have hps : pysplit (encodeMember m ++ "|" ++
          encodeMembers (m2 :: rest2)) '|' =
          encodeMember m :: pysplit (encodeMembers (m2 :: rest2)) '|' := by
        unfold pysplit
        rw [toList_pipe_join]
        rw [splitc_append_sep '|' (encodeMember m).toList
          (encodeMember_no_pipe hw) (encodeMembers (m2 :: rest2)).toList]
        simp [asString_toList, asString_data]
      rw [hps]
      simp [List.filterMap, memberOfEntry_encode hw, ihx]

/-! The auxiliary document segments vanish on the shared field set: the
XML attribute vocabulary carries no platform, publication, relationship,
similarity, dataset, hallmark or version data, and the matching caches
and relationship tables on the relational side are empty. -/

theorem xmlPlatformDoc_shared (l : LogicalEntity) :
    xmlPlatformDoc (toXmlElem l) = [] := rfl

theorem xmlExtDoc_shared (l : LogicalEntity) :
    xmlExtDoc (toXmlElem l) = [] := rfl

theorem xmlPubDoc_shared (l : LogicalEntity) :
    xmlPubDoc (toXmlElem l) = [] := rfl

theorem xmlRelDoc_shared (l : LogicalEntity) :
    xmlRelDoc (toXmlElem l) [] = [] := rfl

theorem xmlFiltDoc_shared (l : LogicalEntity) :
    xmlFiltDoc (toXmlElem l) = [] := rfl

theorem xmlDsDoc_shared (l : LogicalEntity) :
    xmlDsDoc (toXmlElem l) = [] := rfl

theorem xmlHallDoc_shared (l : LogicalEntity) :
    xmlHallDoc (toXmlElem l) = [] := rfl

theorem xmlVhDoc_shared (l : LogicalEntity) :
    xmlVhDoc (toXmlElem l) [] = [] := rfl

theorem sqlPlatformDoc_shared (l : LogicalEntity) :
    sqlPlatformDoc (get_gene_set_basic_info (toGsRow l) (toSqlCaches l)) =
      [] := rfl

theorem sqlExtDoc_shared (l : LogicalEntity) :
    sqlExtDoc (get_gene_set_basic_info (toGsRow l) (toSqlCaches l))
      (toSqlCaches l) = [] := rfl

theorem sqlPubDoc_shared (l : LogicalEntity) :
    sqlPubDoc (get_gene_set_basic_info (toGsRow l) (toSqlCaches l))
      (toSqlCaches l) = [] := rfl

theorem sqlRelDoc_shared (l : LogicalEntity) (g : Int) :
    sqlRelDoc (get_gene_set_basic_info (toGsRow l) (toSqlCaches l)) g
      emptyDb = [] := rfl

theorem sqlFiltDoc_shared (l : LogicalEntity) (g : Int) :
    sqlFiltDoc g (toSqlCaches l) = [] := rfl

theorem sqlDsDoc_shared (l : LogicalEntity) (g : Int) :
    sqlDsDoc (get_gene_set_basic_info (toGsRow l) (toSqlCaches l)) g
      (toSqlCaches l) = [] := rfl

theorem sqlHallDoc_shared (l : LogicalEntity) (g : Int) :
    sqlHallDoc g (toSqlCaches l) = [] := rfl

theorem sqlVhDoc_shared (l : LogicalEntity) :
    sqlVhDoc (get_gene_set_basic_info (toGsRow l) (toSqlCaches l)) [] =
      [] := rfl

theorem alookup_filter_cons_dropped {q : String × Val → Bool}
    {k2 : String} (v : Val) (l : Doc) (k : String)
    (hq : q (k2, v) = false) :
    alookup (((k2, v) :: l).filter q) k = alookup (l.filter q) k := by
  simp [List.filter_cons, hq]

theorem xmlGeneSetData_shared (l : LogicalEntity) :
    xmlGeneSetData (toXmlElem l) [] [] =
      (xmlBase (toXmlElem l) ++ xmlMemDoc (toXmlElem l)).filter keepTop := by
  unfold xmlGeneSetData xmlPre
  rw [xmlPlatformDoc_shared, xmlExtDoc_shared, xmlPubDoc_shared,
    xmlRelDoc_shared, xmlFiltDoc_shared, xmlDsDoc_shared,
    xmlHallDoc_shared, xmlVhDoc_shared]
  simp

theorem sqlGeneSetData_shared (l : LogicalEntity) (g : Int) :
    sqlGeneSetData (toGsRow l) g (toSqlCaches l) emptyDb [] l.members =
      sqlBase (get_gene_set_basic_info (toGsRow l) (toSqlCaches l)) ++
        sqlMemDoc l.members := by
  simp only [sqlGeneSetData]
  rw [sqlPlatformDoc_shared, sqlExtDoc_shared, sqlPubDoc_shared,
    sqlRelDoc_shared, sqlFiltDoc_shared, sqlDsDoc_shared,
    sqlHallDoc_shared, sqlVhDoc_shared]
  simp

/-- C3 counterexample: the two normalizations do not agree even on the
shared field core. A member whose gene symbol is null round-trips through
the XML member-mapping wire format as an empty string (the encoding has
no way to write the null), so the XML variant counts it as mapped while
the relational variant does not: num_genes_mapped is 1 on one side and 0
on the other for the same logical entity. -/
theorem roundtrip_counterexample :
    fieldNorm (xmlGeneSetData (toXmlElem nullSymbolEntity) [] [])
        "num_genes_mapped" ≠
      fieldNorm (sqlGeneSetData (toGsRow nullSymbolEntity) 1
        (toSqlCaches nullSymbolEntity) emptyDb [] nullSymbolEntity.members)
        "num_genes_mapped" := by
  intro hcon
  have h1 : fieldNorm (xmlGeneSetData (toXmlElem nullSymbolEntity) [] [])
      "num_genes_mapped" = Val.num 1 := rfl
  have h2 : fieldNorm (sqlGeneSetData (toGsRow nullSymbolEntity) 1
      (toSqlCaches nullSymbolEntity) emptyDb [] nullSymbolEntity.members)
      "num_genes_mapped" = Val.num 0 := rfl
  rw [h1, h2] at hcon
  simp at hcon

/-- C3 (amended): for a logical entity whose optional string fields are
never the empty string, whose species code and display name are
non-empty, and whose member list is non-empty and well-formed (present
non-empty gene symbols, no separator characters, numeric-or-absent NCBI
ids), the relational field set and the equivalent XML field set produce
the same value on every shared-core field once an omitted key is read as
null; fields only one source can supply (collection naming, license,
publication metadata, platform, links, hallmark and history data) stay
outside the comparison. -/
theorem roundtrip_shared_core_amended (l : LogicalEntity)
    (h2 : l.systematic ≠ some "") (h3 : l.brief ≠ some "")
    (h4 : l.full ≠ some "") (h5 : l.contributor ≠ some "")
    (h6 : l.contributorOrg ≠ some "") (h7 : l.exactSource ≠ some "")
    (h8 : l.speciesCode ≠ "") (h9 : l.speciesName ≠ "")
    (h10 : l.members ≠ []) (h11 : ∀ m ∈ l.members, memberWF m = true) :
    ∀ k ∈ sharedCoreKeys,
      fieldNorm (xmlGeneSetData (toXmlElem l) [] []) k =
        fieldNorm (sqlGeneSetData (toGsRow l) 1 (toSqlCaches l) emptyDb []
          l.members) k := by
  have hparse := parse_members_mapping_encode l.members h11
  intro k hk
  rw [xmlGeneSetData_shared, sqlGeneSetData_shared]
  simp only [sharedCoreKeys, List.mem_cons, List.not_mem_nil, or_false] at hk
  rcases hk with rfl|rfl|rfl|rfl|rfl|rfl|rfl|rfl|rfl|rfl|rfl|rfl
  · simp [xmlBase, xmlMemDoc, sqlBase, sqlMemDoc, get_gene_set_basic_info,
      toGsRow, toXmlElem, toSqlCaches, xget, alookup_cons, alookup_nil, fieldNorm,
      keepTop, keepVal, optVal, orNone, alookup_filter_cons_ne,
      alookup_filter_cons_kept, alookup_filter_cons_dropped,
      List.cons_append]
  · cases hv : l.systematic with
    | none => simp [xmlBase, xmlMemDoc, sqlBase, sqlMemDoc, get_gene_set_basic_info,
      toGsRow, toXmlElem, toSqlCaches, xget, alookup_cons, alookup_nil, fieldNorm,
      keepTop, keepVal, optVal, orNone, alookup_filter_cons_ne,
      alookup_filter_cons_kept, alookup_filter_cons_dropped,
      List.cons_append, hv]
    | some s =>
      have hs9 : s ≠ "" := fun hh => h2 (by rw [hv, hh])
      simp [xmlBase, xmlMemDoc, sqlBase, sqlMemDoc, get_gene_set_basic_info,
      toGsRow, toXmlElem, toSqlCaches, xget, alookup_cons, alookup_nil, fieldNorm,
      keepTop, keepVal, optVal, orNone, alookup_filter_cons_ne,
      alookup_filter_cons_kept, alookup_filter_cons_dropped,
      List.cons_append, hv, hs9]
  · cases hv : l.brief with
    | none => simp [xmlBase, xmlMemDoc, sqlBase, sqlMemDoc, get_gene_set_basic_info,
      toGsRow, toXmlElem, toSqlCaches, xget, alookup_cons, alookup_nil, fieldNorm,
      keepTop, keepVal, optVal, orNone, alookup_filter_cons_ne,
      alookup_filter_cons_kept, alookup_filter_cons_dropped,
      List.cons_append, hv]
    | some s =>
      have hs9 : s ≠ "" := fun hh => h3 (by rw [hv, hh])
      simp [xmlBase, xmlMemDoc, sqlBase, sqlMemDoc, get_gene_set_basic_info,
      toGsRow, toXmlElem, toSqlCaches, xget, alookup_cons, alookup_nil, fieldNorm,
      keepTop, keepVal, optVal, orNone, alookup_filter_cons_ne,
      alookup_filter_cons_kept, alookup_filter_cons_dropped,
      List.cons_append, hv, hs9]
  · cases hv : l.full with
    | none => simp [xmlBase, xmlMemDoc, sqlBase, sqlMemDoc, get_gene_set_basic_info,
      toGsRow, toXmlElem, toSqlCaches, xget, alookup_cons, alookup_nil, fieldNorm,
      keepTop, keepVal, optVal, orNone, alookup_filter_cons_ne,
      alookup_filter_cons_kept, alookup_filter_cons_dropped,
      List.cons_append, hv]
    | some s =>
      have hs9 : s ≠ "" := fun hh => h4 (by rw [hv, hh])
      simp [xmlBase, xmlMemDoc, sqlBase, sqlMemDoc, get_gene_set_basic_info,
      toGsRow, toXmlElem, toSqlCaches, xget, alookup_cons, alookup_nil, fieldNorm,
      keepTop, keepVal, optVal, orNone, alookup_filter_cons_ne,
      alookup_filter_cons_kept, alookup_filter_cons_dropped,
      List.cons_append, hv, hs9]
  · simp [xmlBase, xmlMemDoc, sqlBase, sqlMemDoc, get_gene_set_basic_info,
      toGsRow, toXmlElem, toSqlCaches, xget, alookup_cons, alookup_nil, fieldNorm,
      keepTop, keepVal, optVal, orNone, alookup_filter_cons_ne,
      alookup_filter_cons_kept, alookup_filter_cons_dropped,
      List.cons_append, h9, optStrTruthy_of_ne h8]
  · cases hv : l.contributor with
    | none => simp [xmlBase, xmlMemDoc, sqlBase, sqlMemDoc, get_gene_set_basic_info,
      toGsRow, toXmlElem, toSqlCaches, xget, alookup_cons, alookup_nil, fieldNorm,
      keepTop, keepVal, optVal, orNone, alookup_filter_cons_ne,
      alookup_filter_cons_kept, alookup_filter_cons_dropped,
      List.cons_append, hv]
    | some s =>
      have hs9 : s ≠ "" := fun hh => h5 (by rw [hv, hh])
      simp [xmlBase, xmlMemDoc, sqlBase, sqlMemDoc, get_gene_set_basic_info,
      toGsRow, toXmlElem, toSqlCaches, xget, alookup_cons, alookup_nil, fieldNorm,
      keepTop, keepVal, optVal, orNone, alookup_filter_cons_ne,
      alookup_filter_cons_kept, alookup_filter_cons_dropped,
      List.cons_append, hv, hs9]
  · cases hv : l.contributorOrg with
    | none => simp [xmlBase, xmlMemDoc, sqlBase, sqlMemDoc, get_gene_set_basic_info,
      toGsRow, toXmlElem, toSqlCaches, xget, alookup_cons, alookup_nil, fieldNorm,
      keepTop, keepVal, optVal, orNone, alookup_filter_cons_ne,
      alookup_filter_cons_kept, alookup_filter_cons_dropped,
      List.cons_append, hv]
    | some s =>
      have hs9 : s ≠ "" := fun hh => h6 (by rw [hv, hh])
      simp [xmlBase, xmlMemDoc, sqlBase, sqlMemDoc, get_gene_set_basic_info,
      toGsRow, toXmlElem, toSqlCaches, xget, alookup_cons, alookup_nil, fieldNorm,
      keepTop, keepVal, optVal, orNone, alookup_filter_cons_ne,
      alookup_filter_cons_kept, alookup_filter_cons_dropped,
      List.cons_append, hv, hs9]
  · cases hv : l.exactSource with
    | none => simp [xmlBase, xmlMemDoc, sqlBase, sqlMemDoc, get_gene_set_basic_info,
      toGsRow, toXmlElem, toSqlCaches, xget, alookup_cons, alookup_nil, fieldNorm,
      keepTop, keepVal, optVal, orNone, alookup_filter_cons_ne,
      alookup_filter_cons_kept, alookup_filter_cons_dropped,
      List.cons_append, hv]
    | some s =>
      have hs9 : s ≠ "" := fun hh => h7 (by rw [hv, hh])
      simp [xmlBase, xmlMemDoc, sqlBase, sqlMemDoc, get_gene_set_basic_info,
      toGsRow, toXmlElem, toSqlCaches, xget, alookup_cons, alookup_nil, fieldNorm,
      keepTop, keepVal, optVal, orNone, alookup_filter_cons_ne,
      alookup_filter_cons_kept, alookup_filter_cons_dropped,
      List.cons_append, hv, hs9]
  · by_cases ht : l.tagsRaw = ""
    · simp [optStrTruthy_none, xmlBase, xmlMemDoc, sqlBase, sqlMemDoc, get_gene_set_basic_info,
      toGsRow, toXmlElem, toSqlCaches, xget, alookup_cons, alookup_nil, fieldNorm,
      keepTop, keepVal, optVal, orNone, alookup_filter_cons_ne,
      alookup_filter_cons_kept, alookup_filter_cons_dropped,
      List.cons_append, ht]
    · simp [xmlBase, xmlMemDoc, sqlBase, sqlMemDoc, get_gene_set_basic_info,
      toGsRow, toXmlElem, toSqlCaches, xget, alookup_cons, alookup_nil, fieldNorm,
      keepTop, keepVal, optVal, orNone, alookup_filter_cons_ne,
      alookup_filter_cons_kept, alookup_filter_cons_dropped,
      List.cons_append, ht, optStrTruthy_of_ne ht]
  · cases hmm : l.members with
    | nil => exact absurd hmm h10
    | cons m0 ms0 =>
      rw [hmm] at hparse
      simp [xmlBase, xmlMemDoc, sqlBase, sqlMemDoc, get_gene_set_basic_info,
      toGsRow, toXmlElem, toSqlCaches, xget, alookup_cons, alookup_nil, fieldNorm,
      keepTop, keepVal, optVal, orNone, alookup_filter_cons_ne,
      alookup_filter_cons_kept, alookup_filter_cons_dropped,
      List.cons_append, hmm, hparse]
  · simp [xmlBase, xmlMemDoc, sqlBase, sqlMemDoc, get_gene_set_basic_info,
      toGsRow, toXmlElem, toSqlCaches, xget, alookup_cons, alookup_nil, fieldNorm,
      keepTop, keepVal, optVal, orNone, alookup_filter_cons_ne,
      alookup_filter_cons_kept, alookup_filter_cons_dropped,
      List.cons_append, hparse]
  · simp [xmlBase, xmlMemDoc, sqlBase, sqlMemDoc, get_gene_set_basic_info,
      toGsRow, toXmlElem, toSqlCaches, xget, alookup_cons, alookup_nil, fieldNorm,
      keepTop, keepVal, optVal, orNone, alookup_filter_cons_ne,
      alookup_filter_cons_kept, alookup_filter_cons_dropped,
      List.cons_append, hparse]

theorem roundtrip_shared_core_amended_witness :
    (∀ m ∈ wellFormedEntity.members, memberWF m = true) ∧
    wellFormedEntity.members ≠ [] ∧
    fieldNorm (xmlGeneSetData (toXmlElem wellFormedEntity) [] [])
        "num_genes_mapped" =
      fieldNorm (sqlGeneSetData (toGsRow wellFormedEntity) 1
        (toSqlCaches wellFormedEntity) emptyDb []
        wellFormedEntity.members) "num_genes_mapped" :=
  ⟨by decide, by decide,
   roundtrip_shared_core_amended wellFormedEntity (by decide) (by decide)
     (by decide) (by decide) (by decide) (by decide) (by decide) (by decide)
     (by decide) (by decide) "num_genes_mapped" (by decide)⟩

end GeneSets
